import Mathlib

set_option maxHeartbeats 1000000

/- Shallow embedding of ig_rest_client (src/ig_rest_client/__init__.py).

   The repository implements an authenticated HTTP client for the IG REST
   trading API with two session variants:
   - `IgRestSessionUsingVersion2LogIn` (Variant A, cookie-style CST /
     X-SECURITY-TOKEN headers), embedded below as the `...A` definitions;
   - `IgRestSessionUsingVersion3LogIn` (Variant B, OAuth bearer token with
     expiry and refresh), embedded below as the `...B` definitions.

   Modelling conventions:
   - Python dicts of headers become association lists with dict-style
     insert/update (`dictInsert`, `dictUpdate`); key order follows Python
     dict insertion order.
   - `time.monotonic()` becomes a clock oracle `clock : Nat -> Rat`
     consumed tick by tick; floats become rationals.
   - The transport (`requests.request`) becomes environment oracles typed by
     call kind (login / refresh / generic), each consumed in order by its own
     counter; response bodies follow the wire contract of the spec (section 6).
     URL joining (`urljoin`) is dropped: only the endpoint matters to the
     claims, and it is recorded verbatim in the trace.
   - Every transport dispatch is recorded as an `Event` in a trace, with a
     snapshot of whether the credential state was populated at dispatch time.
   - `raise Exception` becomes an `Err` value tagged by raise site; the bare
     Python exceptions carry no payload and neither do the corresponding
     `Err.requestFailed` / `Err.logInFailed` constructors.  The
     `log.error(...)` calls become structured `LogEntry` values.
   - The mutual recursion `_request` / `_log_in` / `switch_session_account` /
     `_refresh_token` is genuinely unbounded in the source (refresh failure
     falls back to login, which may switch accounts, which issues a request,
     which may refresh ...), so the embedding is fuel-indexed; running out of
     fuel is the distinguished outcome `Err.outOfFuel`. -/

abbrev Headers := List (String × String)

/-- Dictionary lookup on an association list (Python `d[k]` / `k in d`). -/
def hLookup (hs : Headers) (k : String) : Option String :=
  (hs.find? (fun p => p.1 == k)).map (fun p => p.2)

/-- Dictionary insertion with Python semantics: replace in place if the key
exists, append otherwise. -/
def dictInsert (hs : Headers) (k v : String) : Headers :=
  if (hs.find? (fun p => p.1 == k)).isSome then
    hs.map (fun p => if p.1 == k then (k, v) else p)
  else hs ++ [(k, v)]

/-- Python `d.update(u)` / `{**d, **u}`: later entries win. -/
def dictUpdate (hs upd : Headers) : Headers :=
  upd.foldl (fun acc p => dictInsert acc p.1 p.2) hs

/-- Variant A token rotation (`__init__.py` lines 111-114): for each key of the
stored authorization headers, if the response headers contain that key, the
stored value is overwritten with the response's value. -/
def rotateHeaders (auth respH : Headers) : Headers :=
  auth.map (fun p =>
    match hLookup respH p.1 with
    | some v => (p.1, v)
    | none => p)

/-- The `rest_api_timeout` configuration value
(`Union[None, float, Tuple[float, float]]`; ints are accepted too and
converted with `float`, so `single` covers both the float and the int case). -/
inductive TimeoutCfg
  | noTimeout
  | single (t : ℚ)
  | connectRead (a b : ℚ)
deriving Repr, DecidableEq

/-- `_DEFAULT_TIMEOUT_IN_SECONDS = 10.0`. -/
def defaultTimeoutInSeconds : ℚ := 10

/-- `IgRestSessionUsingVersion3LogIn._time_when_request_completes` (lines
173-181): now plus the configured timeout when it is a float (or an int,
converted by `float`), now plus the 10.0-second default when the timeout is
`None` or a (connect, read) tuple. -/
def timeWhenRequestCompletes (cfg : TimeoutCfg) (timeNow : ℚ) : ℚ :=
  match cfg with
  | .single t => timeNow + t
  | .noTimeout => timeNow + defaultTimeoutInSeconds
  | .connectRead _ _ => timeNow + defaultTimeoutInSeconds

/-- The refresh decision of `IgRestSessionUsingVersion3LogIn._request` line
187: `self._time_when_request_completes() > self._token_expiry_timestamp`. -/
def needsRefreshB (cfg : TimeoutCfg) (timeNow expiry : ℚ) : Bool :=
  timeWhenRequestCompletes cfg timeNow > expiry

/-- Modelled from the spec's wording for the projected duration (claim
comparison definition): "the configured timeout when it is a float or int",
falling back "to 10.0 seconds when the timeout is None or a (connect, read)
tuple". -/
def projectedDuration (cfg : TimeoutCfg) : ℚ :=
  match cfg with
  | .single t => t
  | _ => 10

/-- The `oauthToken` object of a Version 3 login response
(`access_token`, `refresh_token`, `expires_in`). -/
structure OAuthToken where
  access_token : String
  refresh_token : String
  expires_in : ℚ
deriving Repr, DecidableEq

/-- The part of a generic JSON response body that the client ever reads
(`result_json['accountId']` in `session_details`). -/
structure RespBody where
  accountId : Option String := none
deriving Repr, DecidableEq

def emptyRespBody : RespBody := {}

/-- A transport response to a generic (non-login, non-refresh) request. -/
structure Response where
  status : Nat
  text : String
  headers : Headers
  hasContent : Bool
  body : RespBody
deriving Repr, DecidableEq

/-- `response.ok` of the requests library: status below 400. -/
def respOk (r : Response) : Bool := r.status < 400

/-- `response.json()` when `response.content` is nonempty, `{}` otherwise
(lines 116-119 and 201-204). -/
def bodyOrEmpty (r : Response) : RespBody :=
  if r.hasContent then r.body else emptyRespBody

/-- Result of a Version 2 `POST /session` login call: on success the response
headers carry the `CST` and `X-SECURITY-TOKEN` tokens and the JSON body
carries `currentAccountId` (wire contract, spec section 6). -/
inductive LoginV2Result
  | ok (cst xSecurityToken currentAccountId : String)
  | err (status : Nat) (text : String)
deriving Repr, DecidableEq

/-- Result of a Version 3 `POST /session` login call: on success the JSON body
carries `accountId` and the `oauthToken` object (wire contract, spec
section 6). -/
inductive LoginV3Result
  | ok (accountId : String) (tok : OAuthToken)
  | err (status : Nat) (text : String)
deriving Repr, DecidableEq

/-- Result of a `POST /session/refresh-token` call: on success the JSON body
is a fresh oauth token object. -/
inductive RefreshResult
  | ok (tok : OAuthToken)
  | err (status : Nat) (text : String)
deriving Repr, DecidableEq

/-- Request bodies serialized by the client (the `data=` arguments). -/
inductive Payload
  | userPayload (s : String)
  | switchPayload (accountId : String) (defaultAccount : Bool)
  | logInV2Payload (encryptedPassword : Bool) (identifier password : String)
  | logInV3Payload (identifier password : String)
  | refreshPayload (refresh_token : String)
deriving Repr, DecidableEq

/-- Kind of a dispatched transport call, for the trace. -/
inductive EvKind
  | loginV2
  | loginV3
  | refreshTok
  | generic
deriving Repr, DecidableEq

/-- One dispatched transport call, as recorded in the trace.
`credsAtDispatch` snapshots whether the variant's credential state was fully
populated at the moment the call went out. -/
structure Event where
  kind : EvKind
  method : String
  endpoint : String
  headersSent : Headers
  data : Option Payload
  credsAtDispatch : Bool
deriving Repr, DecidableEq

/-- Structured stand-ins for the `log.error` call sites: each failure site
logs the status code and the response text (lines 121-123, 134-136, 206-208,
218-220, 238-240). -/
inductive LogEntry
  | requestFailed (status : Nat) (text : String)
  | failedLogIn (status : Nat) (text : String)
  | failedRefresh (status : Nat) (text : String)
deriving Repr, DecidableEq

/-- Raised exceptions, tagged by raise site.  `requestFailed` and
`logInFailed` model the bare `raise Exception` at lines 124/209 and 137/221
and carry no payload, exactly as the source's exceptions carry none;
`consistency` models line 57's `Exception('incorrect accountId in session
details')`; `keyErr` / `typeErr` model Python KeyError/TypeError-style crashes
on absent values (unreachable from well-formed states); `outOfFuel` is the
fuel-exhaustion outcome of the embedding. -/
inductive Err
  | requestFailed
  | logInFailed
  | consistency (msg : String)
  | keyErr
  | typeErr
  | outOfFuel
deriving Repr, DecidableEq

/-- Immutable session configuration (constructor arguments other than the
initial account id, which is mutable state). -/
structure Config where
  api_key : String
  username : String
  password : String
  timeout : TimeoutCfg
deriving Repr, DecidableEq

/-- The base header set `self._headers` (lines 84-86 and 158-160). -/
def baseHeaders (cfg : Config) : Headers :=
  [("Content-Type", "application/json"),
   ("Accept", "application/json; charset=UTF-8"),
   ("X-IG-API-KEY", cfg.api_key)]

/- ------------------------------------------------------------------ -/
/- Variant A: IgRestSessionUsingVersion2LogIn                          -/
/- ------------------------------------------------------------------ -/

/-- Mutable session state of Variant A: the tracked account id and
`self._authorization_headers` (None before the first login). -/
structure StA where
  account_id : String
  authorization_headers : Option Headers
deriving Repr, DecidableEq

/-- Variant A credential state is populated when the authorization headers
are set. -/
def popA (st : StA) : Bool := st.authorization_headers.isSome

/-- Machine state of a Variant A client: session state, transport call
counters, the trace of dispatched calls and the error log. -/
structure MachA where
  st : StA
  nLogin : Nat
  nGeneric : Nat
  trace : List Event
  logs : List LogEntry
deriving Repr, DecidableEq

/-- Environment of a Variant A client: the response to the n-th login call
and to the n-th generic transport call. -/
structure EnvA where
  loginResp : Nat → LoginV2Result
  genericResp : Nat → Response

/-- A freshly constructed Variant A client (lines 75-88). -/
def initA (account_id : String) : MachA :=
  { st := { account_id := account_id, authorization_headers := none },
    nLogin := 0, nGeneric := 0, trace := [], logs := [] }

/-- Internal operations of Variant A: `_request`, `_log_in`,
`switch_session_account`. -/
inductive ActA
  | req (method endpoint : String) (params data : Option Payload) (headers : Option Headers)
  | logIn
  | switchAcct (account_id : String) (default_account : Bool)
deriving Repr, DecidableEq

/-- The Version 2 login dispatch event (line 127-129): raw `request` call
with `{**self._headers, 'Version': '2'}` and the login body. -/
def loginEventA (cfg : Config) (m : MachA) : Event :=
  { kind := .loginV2, method := "POST", endpoint := "session",
    headersSent := dictInsert (baseHeaders cfg) "Version" "2",
    data := some (.logInV2Payload false cfg.username cfg.password),
    credsAtDispatch := popA m.st }

/-- The trace event of a generic transport call by a Variant A client. -/
def genericEventA (m : MachA) (method endpoint : String) (hs : Headers)
    (data : Option Payload) : Event :=
  { kind := .generic, method := method, endpoint := endpoint,
    headersSent := hs, data := data, credsAtDispatch := popA m.st }

/-- Dispatch of a generic transport call by a Variant A client, consuming the
next generic response and recording the event. -/
def dispatchGenericA (env : EnvA) (m : MachA) (method endpoint : String)
    (hs : Headers) (data : Option Payload) : Response × MachA :=
  (env.genericResp m.nGeneric,
   { m with
     nGeneric := m.nGeneric + 1,
     trace := m.trace ++ [genericEventA m method endpoint hs data] })

/-- The three-tier header merge of `_request` (lines 100-102 and 190-192):
base headers, then the stored authorization headers, then any caller-supplied
per-call headers, later tiers winning. -/
def mergeHeaders (cfg : Config) (auth : Headers) (headers : Option Headers) : Headers :=
  match headers with
  | some h => dictUpdate (dictUpdate (baseHeaders cfg) auth) h
  | none => dictUpdate (baseHeaders cfg) auth

/-- The `_request` body after the login check (lines 100-124), acting on the
state as it stands after any `_log_in`: merge base, stored and caller-supplied
headers, dispatch, rotate the tracked tokens on success, log and raise on
failure. -/
def reqCoreA (cfg : Config) (env : EnvA) (method endpoint : String)
    (data : Option Payload) (headers : Option Headers) (m1 : MachA) :
    Except Err RespBody × MachA :=
  match m1.st.authorization_headers with
  | none => (.error .typeErr, m1)
  | some auth =>
    let (resp, m2) := dispatchGenericA env m1 method endpoint
      (mergeHeaders cfg auth headers) data
    if respOk resp then
      (.ok (bodyOrEmpty resp),
       { m2 with st := { m2.st with
           authorization_headers := some (rotateHeaders auth resp.headers) } })
    else
      (.error .requestFailed,
       { m2 with logs := m2.logs ++ [.requestFailed resp.status resp.text] })

/-- State change of a successful Variant A login dispatch (lines 127 and
139-140): bump the login counter, record the event, store the two tokens. -/
def afterLoginOkA (cfg : Config) (m : MachA) (cst xst : String) : MachA :=
  { m with nLogin := m.nLogin + 1, trace := m.trace ++ [loginEventA cfg m],
           st := { m.st with
             authorization_headers := some [("CST", cst), ("X-SECURITY-TOKEN", xst)] } }

/-- State change of a failed Variant A login dispatch (lines 127 and
134-136): bump the login counter, record the event, log the failure. -/
def afterLoginErrA (cfg : Config) (m : MachA) (status : Nat) (text : String) : MachA :=
  { m with nLogin := m.nLogin + 1, trace := m.trace ++ [loginEventA cfg m],
           logs := m.logs ++ [.failedLogIn status text] }

/-- Fuel-indexed interpreter for Variant A's mutually recursive internal
operations (`_request` lines 96-124, `_log_in` lines 126-143,
`switch_session_account` lines 49-52 with `_set_account_id` lines 93-94).
`_log_in` returns None in Python; here it returns `emptyRespBody`, which every
caller discards. -/
def execA (cfg : Config) (env : EnvA) : Nat → ActA → MachA → Except Err RespBody × MachA
  | 0, _, m => (.error .outOfFuel, m)
  | fuel + 1, .req method endpoint _params data headers, m =>
    if m.st.authorization_headers.isNone then
      match execA cfg env fuel .logIn m with
      | (.error e, m1) => (.error e, m1)
      | (.ok _, m1) => reqCoreA cfg env method endpoint data headers m1
    else reqCoreA cfg env method endpoint data headers m
  | fuel + 1, .logIn, m =>
    match env.loginResp m.nLogin with
    | .err status text => (.error .logInFailed, afterLoginErrA cfg m status text)
    | .ok cst xst currentAccountId =>
      let m2 := afterLoginOkA cfg m cst xst
      if m2.st.account_id ≠ currentAccountId then
        match execA cfg env fuel (.switchAcct m2.st.account_id false) m2 with
        | (.error e, m3) => (.error e, m3)
        | (.ok _, m3) => (.ok emptyRespBody, m3)
      else (.ok emptyRespBody, m2)
  | fuel + 1, .switchAcct aid defAcc, m =>
    match execA cfg env fuel
        (.req "PUT" "session" none (some (.switchPayload aid defAcc)) (some [("Version", "1")])) m with
    | (.error e, m1) => (.error e, m1)
    | (.ok body, m1) =>
      (.ok body, { m1 with st := { m1.st with account_id := aid } })

/- ------------------------------------------------------------------ -/
/- Variant B: IgRestSessionUsingVersion3LogIn                          -/
/- ------------------------------------------------------------------ -/

/-- Mutable session state of Variant B: tracked account id, `_oauth_token`,
`_authorization_headers`, `_token_expiry_timestamp` (all None before the
first login, lines 162-164). -/
structure StB where
  account_id : String
  oauth_token : Option OAuthToken
  authorization_headers : Option Headers
  token_expiry_timestamp : Option ℚ
deriving Repr, DecidableEq

/-- Variant B credential state is fully populated when the oauth token, the
authorization headers and the expiry timestamp are all set. -/
def popB (st : StB) : Bool :=
  st.oauth_token.isSome && st.authorization_headers.isSome
    && st.token_expiry_timestamp.isSome

/-- Machine state of a Variant B client. -/
structure MachB where
  st : StB
  nLogin : Nat
  nRefresh : Nat
  nGeneric : Nat
  nClock : Nat
  trace : List Event
  logs : List LogEntry
deriving Repr, DecidableEq

/-- Environment of a Variant B client: responses per call kind and the
monotonic clock, each consumed in order. -/
structure EnvB where
  loginResp : Nat → LoginV3Result
  refreshResp : Nat → RefreshResult
  genericResp : Nat → Response
  clock : Nat → ℚ

/-- A freshly constructed Variant B client (lines 149-164). -/
def initB (account_id : String) : MachB :=
  { st := { account_id := account_id, oauth_token := none,
            authorization_headers := none, token_expiry_timestamp := none },
    nLogin := 0, nRefresh := 0, nGeneric := 0, nClock := 0,
    trace := [], logs := [] }

/-- One `time.monotonic()` call. -/
def tickB (env : EnvB) (m : MachB) : ℚ × MachB :=
  (env.clock m.nClock, { m with nClock := m.nClock + 1 })

/-- Internal operations of Variant B: `_request`, `_log_in`, `_refresh_token`,
`switch_session_account`. -/
inductive ActB
  | req (method endpoint : String) (params data : Option Payload) (headers : Option Headers)
  | logIn
  | refreshTok
  | switchAcct (account_id : String) (default_account : Bool)
deriving Repr, DecidableEq

/-- The Version 3 login dispatch event (lines 212-214). -/
def loginEventB (cfg : Config) (m : MachB) : Event :=
  { kind := .loginV3, method := "POST", endpoint := "session",
    headersSent := dictInsert (baseHeaders cfg) "Version" "3",
    data := some (.logInV3Payload cfg.username cfg.password),
    credsAtDispatch := popB m.st }

/-- The refresh-token dispatch event (lines 232-234). -/
def refreshEventB (cfg : Config) (m : MachB) (refresh_token : String) : Event :=
  { kind := .refreshTok, method := "POST", endpoint := "session/refresh-token",
    headersSent := dictInsert (baseHeaders cfg) "Version" "1",
    data := some (.refreshPayload refresh_token),
    credsAtDispatch := popB m.st }

/-- The trace event of a generic transport call by a Variant B client. -/
def genericEventB (m : MachB) (method endpoint : String) (hs : Headers)
    (data : Option Payload) : Event :=
  { kind := .generic, method := method, endpoint := endpoint,
    headersSent := hs, data := data, credsAtDispatch := popB m.st }

/-- Dispatch of a generic transport call by a Variant B client. -/
def dispatchGenericB (env : EnvB) (m : MachB) (method endpoint : String)
    (hs : Headers) (data : Option Payload) : Response × MachB :=
  (env.genericResp m.nGeneric,
   { m with
     nGeneric := m.nGeneric + 1,
     trace := m.trace ++ [genericEventB m method endpoint hs data] })

/-- `IgRestSessionUsingVersion3LogIn._set_account_id` (lines 169-171): sets
the tracked account id, then updates the `IG-ACCOUNT-ID` authorization
header.  Mirroring the source's statement order, the account id is already
assigned when the header update would crash on absent headers. -/
def setAccountIdB (m : MachB) (aid : String) : Except Err Unit × MachB :=
  match m.st.authorization_headers with
  | none => (.error .typeErr, { m with st := { m.st with account_id := aid } })
  | some h =>
    (.ok (),
     { m with st :=
        { account_id := aid,
          oauth_token := m.st.oauth_token,
          authorization_headers := some (dictInsert h "IG-ACCOUNT-ID" aid),
          token_expiry_timestamp := m.st.token_expiry_timestamp } })

/-- The `_request` body after the login and refresh steps (lines 190-209),
acting on the state as it stands after them: merge base, stored and
caller-supplied headers, dispatch, log and raise on failure. -/
def reqCoreB (cfg : Config) (env : EnvB) (method endpoint : String)
    (data : Option Payload) (headers : Option Headers) (m3 : MachB) :
    Except Err RespBody × MachB :=
  match m3.st.authorization_headers with
  | none => (.error .typeErr, m3)
  | some auth =>
    let (resp, m4) := dispatchGenericB env m3 method endpoint
      (mergeHeaders cfg auth headers) data
    if respOk resp then
      (.ok (bodyOrEmpty resp), m4)
    else
      (.error .requestFailed,
       { m4 with logs := m4.logs ++ [.requestFailed resp.status resp.text] })

/-- State change of a successful Variant B login dispatch (lines 212, 223-226):
bump the login counter, record the event, store the oauth token and the
authorization headers, then derive the expiry timestamp from the next
monotonic clock reading. -/
def afterLoginOkB (cfg : Config) (env : EnvB) (m : MachB)
    (accountId : String) (tok : OAuthToken) : MachB :=
  let m1 := { m with nLogin := m.nLogin + 1, trace := m.trace ++ [loginEventB cfg m] }
  let m2 := { m1 with st := { m1.st with
      oauth_token := some tok,
      authorization_headers := some [("IG-ACCOUNT-ID", accountId),
                                     ("Authorization", "Bearer " ++ tok.access_token)] } }
  let (timeNow, m3) := tickB env m2
  { m3 with st := { m3.st with token_expiry_timestamp := some (timeNow + tok.expires_in) } }

/-- State change of a failed Variant B login dispatch (lines 212, 218-220). -/
def afterLoginErrB (cfg : Config) (m : MachB) (status : Nat) (text : String) : MachB :=
  { m with nLogin := m.nLogin + 1, trace := m.trace ++ [loginEventB cfg m],
           logs := m.logs ++ [.failedLogIn status text] }

/-- State change of a failed refresh dispatch before the fallback login
(lines 232, 238-240): bump the refresh counter, record the event, log the
failure. -/
def afterRefreshFailB (cfg : Config) (m : MachB) (refresh_token : String)
    (status : Nat) (text : String) : MachB :=
  { m with nRefresh := m.nRefresh + 1,
           trace := m.trace ++ [refreshEventB cfg m refresh_token],
           logs := m.logs ++ [.failedRefresh status text] }

/-- Fuel-indexed interpreter for Variant B's mutually recursive internal
operations (`_request` lines 183-209, `_log_in` lines 211-229,
`_refresh_token` lines 231-247, `switch_session_account` lines 49-52). -/
def execB (cfg : Config) (env : EnvB) : Nat → ActB → MachB → Except Err RespBody × MachB
  | 0, _, m => (.error .outOfFuel, m)
  | fuel + 1, .req method endpoint _params data headers, m =>
    let step1 : Except Err RespBody × MachB :=
      if m.st.oauth_token.isNone || m.st.authorization_headers.isNone then
        execB cfg env fuel .logIn m
      else (.ok emptyRespBody, m)
    match step1 with
    | (.error e, m1) => (.error e, m1)
    | (.ok _, m1) =>
      let (timeNow, m2) := tickB env m1
      match m2.st.token_expiry_timestamp with
      | none => (.error .typeErr, m2)
      | some expiry =>
        if needsRefreshB cfg.timeout timeNow expiry then
          match execB cfg env fuel .refreshTok m2 with
          | (.error e, m3) => (.error e, m3)
          | (.ok _, m3) => reqCoreB cfg env method endpoint data headers m3
        else reqCoreB cfg env method endpoint data headers m2
  | fuel + 1, .logIn, m =>
    match env.loginResp m.nLogin with
    | .err status text => (.error .logInFailed, afterLoginErrB cfg m status text)
    | .ok accountId tok =>
      let m4 := afterLoginOkB cfg env m accountId tok
      if m4.st.account_id ≠ accountId then
        match execB cfg env fuel (.switchAcct m4.st.account_id false) m4 with
        | (.error e, m5) => (.error e, m5)
        | (.ok _, m5) => (.ok emptyRespBody, m5)
      else (.ok emptyRespBody, m4)
  | fuel + 1, .refreshTok, m =>
    match m.st.oauth_token with
    | none => (.error .typeErr, m)
    | some tok =>
      match env.refreshResp m.nRefresh with
      | .err status text =>
        execB cfg env fuel .logIn (afterRefreshFailB cfg m tok.refresh_token status text)
      | .ok tok2 =>
        let m1 := { m with nRefresh := m.nRefresh + 1,
                           trace := m.trace ++ [refreshEventB cfg m tok.refresh_token] }
        let m2 := { m1 with st := { m1.st with oauth_token := some tok2 } }
        match m2.st.authorization_headers with
        | none => (.error .typeErr, m2)
        | some h =>
          let m3 := { m2 with st := { m2.st with
              authorization_headers := some (dictInsert h "Authorization"
                ("Bearer " ++ tok2.access_token)) } }
          let (timeNow, m4) := tickB env m3
          (.ok emptyRespBody,
           { m4 with st := { m4.st with
               token_expiry_timestamp := some (timeNow + tok2.expires_in) } })
  | fuel + 1, .switchAcct aid defAcc, m =>
    match execB cfg env fuel
        (.req "PUT" "session" none (some (.switchPayload aid defAcc)) (some [("Version", "1")])) m with
    | (.error e, m1) => (.error e, m1)
    | (.ok body, m1) =>
      match setAccountIdB m1 aid with
      | (.error e, m2) => (.error e, m2)
      | (.ok _, m2) => (.ok body, m2)

/- ------------------------------------------------------------------ -/
/- Public facade (AbstractIgRestSession)                               -/
/- ------------------------------------------------------------------ -/

/-- Public operations of `AbstractIgRestSession`: the four verb methods
(lines 25-43), `switch_session_account` (49-52), `session_details` (54-58)
and `log_out` (60-61). -/
inductive PubOp
  | get (endpoint : String) (params data : Option Payload) (headers : Option Headers)
  | post (endpoint : String) (params data : Option Payload) (headers : Option Headers)
  | put (endpoint : String) (params data : Option Payload) (headers : Option Headers)
  | delete (endpoint : String) (params data : Option Payload) (headers : Option Headers)
  | switchAccount (account_id : String) (default_account : Bool)
  | sessionDetails
  | logOut
deriving Repr, DecidableEq

/-- `session_details` (lines 54-58) given the outcome of its inner
`self.get('session', headers={'Version': '1'})`: reads `accountId` from the
result (a KeyError when absent), compares it with the locally tracked account
id and raises `Exception('incorrect accountId in session details')` on
mismatch. -/
def sessionDetailsCheck {M : Type} (account_id : String)
    (inner : Except Err RespBody × M) : Except Err RespBody × M :=
  match inner.1 with
  | .error e => (.error e, inner.2)
  | .ok body =>
    match body.accountId with
    | none => (.error .keyErr, inner.2)
    | some aid =>
      if account_id ≠ aid then
        (.error (.consistency "incorrect accountId in session details"), inner.2)
      else (.ok body, inner.2)

/-- Run one public operation on a Variant A client. -/
def runOpA (cfg : Config) (env : EnvA) (fuel : Nat) (op : PubOp) (m : MachA) :
    Except Err RespBody × MachA :=
  match op with
  | .get endpoint params data headers => execA cfg env fuel (.req "GET" endpoint params data headers) m
  | .post endpoint params data headers => execA cfg env fuel (.req "POST" endpoint params data headers) m
  | .put endpoint params data headers => execA cfg env fuel (.req "PUT" endpoint params data headers) m
  | .delete endpoint params data headers => execA cfg env fuel (.req "DELETE" endpoint params data headers) m
  | .switchAccount aid defAcc => execA cfg env fuel (.switchAcct aid defAcc) m
  | .sessionDetails =>
    let inner := execA cfg env fuel (.req "GET" "session" none none (some [("Version", "1")])) m
    sessionDetailsCheck inner.2.st.account_id inner
  | .logOut =>
    match execA cfg env fuel (.req "DELETE" "session" none none (some [("Version", "1")])) m with
    | (.error e, m1) => (.error e, m1)
    | (.ok _, m1) => (.ok emptyRespBody, m1)

/-- Run one public operation on a Variant B client. -/
def runOpB (cfg : Config) (env : EnvB) (fuel : Nat) (op : PubOp) (m : MachB) :
    Except Err RespBody × MachB :=
  match op with
  | .get endpoint params data headers => execB cfg env fuel (.req "GET" endpoint params data headers) m
  | .post endpoint params data headers => execB cfg env fuel (.req "POST" endpoint params data headers) m
  | .put endpoint params data headers => execB cfg env fuel (.req "PUT" endpoint params data headers) m
  | .delete endpoint params data headers => execB cfg env fuel (.req "DELETE" endpoint params data headers) m
  | .switchAccount aid defAcc => execB cfg env fuel (.switchAcct aid defAcc) m
  | .sessionDetails =>
    let inner := execB cfg env fuel (.req "GET" "session" none none (some [("Version", "1")])) m
    sessionDetailsCheck inner.2.st.account_id inner
  | .logOut =>
    match execB cfg env fuel (.req "DELETE" "session" none none (some [("Version", "1")])) m with
    | (.error e, m1) => (.error e, m1)
    | (.ok _, m1) => (.ok emptyRespBody, m1)

/-- Run a sequence of public operations on a Variant A client, each with the
given fuel, continuing after errors (the caller may catch exceptions and keep
using the client). -/
def runOpsA (cfg : Config) (env : EnvA) (fuel : Nat) (ops : List PubOp) (m : MachA) : MachA :=
  match ops with
  | [] => m
  | op :: rest => runOpsA cfg env fuel rest (runOpA cfg env fuel op m).2

/-- Run a sequence of public operations on a Variant B client. -/
def runOpsB (cfg : Config) (env : EnvB) (fuel : Nat) (ops : List PubOp) (m : MachB) : MachB :=
  match ops with
  | [] => m
  | op :: rest => runOpsB cfg env fuel rest (runOpB cfg env fuel op m).2

/- ------------------------------------------------------------------ -/
/- Trace and state invariants                                          -/
/- ------------------------------------------------------------------ -/

/-- An event is compatible with the "no dispatch before login" discipline:
it is a login dispatch, or the credential state was populated when it went
out. -/
def GoodEv (e : Event) : Prop :=
  e.kind = .loginV2 ∨ e.kind = .loginV3 ∨ e.credsAtDispatch = true

/-- Every event of the trace is a login dispatch or went out with populated
credentials. -/
def GoodTrace (t : List Event) : Prop := ∀ e ∈ t, GoodEv e

theorem goodTrace_append {t₁ t₂ : List Event} (h₁ : GoodTrace t₁) (h₂ : GoodTrace t₂) :
    GoodTrace (t₁ ++ t₂) := by
  intro e he
  rcases List.mem_append.1 he with h | h
  · exact h₁ e h
  · exact h₂ e h

theorem goodTrace_single {e : Event} (h : GoodEv e) : GoodTrace [e] := by
  intro e' he'
  rw [List.mem_singleton.1 he']
  exact h

/-- Variant A credential-state invariant: the authorization headers are
absent, or they are the fully populated two-entry CST / X-SECURITY-TOKEN
dictionary created by `_log_in`. -/
def InvA (st : StA) : Prop :=
  st.authorization_headers = none ∨
    ∃ c x, st.authorization_headers = some [("CST", c), ("X-SECURITY-TOKEN", x)]

/-- Variant B credential-state invariant: the oauth token, authorization
headers and expiry timestamp are all absent, or all present. -/
def InvB (st : StB) : Prop :=
  (st.oauth_token = none ∧ st.authorization_headers = none ∧
    st.token_expiry_timestamp = none) ∨ popB st = true

/-- Rotation of the two tracked Variant A headers keeps the two-entry shape. -/
theorem rotateHeaders_shape (c x : String) (rh : Headers) :
    ∃ c' x', rotateHeaders [("CST", c), ("X-SECURITY-TOKEN", x)] rh =
      [("CST", c'), ("X-SECURITY-TOKEN", x')] := by
  simp only [rotateHeaders, List.map]
  cases hLookup rh "CST" <;> cases hLookup rh "X-SECURITY-TOKEN" <;>
    exact ⟨_, _, rfl⟩

/-- The post-login request core of Variant A preserves the trace discipline:
its only dispatch goes out with populated credentials. -/
theorem reqCoreA_good (cfg : Config) (env : EnvA) (method endpoint : String)
    (data : Option Payload) (headers : Option Headers) (m1 : MachA)
    (h : GoodTrace m1.trace) :
    GoodTrace (reqCoreA cfg env method endpoint data headers m1).2.trace := by
  unfold reqCoreA
  split
  next => simpa using h
  next auth hauth =>
    simp only [dispatchGenericA]
    split <;>
      exact goodTrace_append h
        (goodTrace_single (Or.inr (Or.inr (by simp [genericEventA, popA, hauth]))))

/-- Every Variant A internal operation preserves the trace discipline: each
non-login dispatch goes out with populated credentials. -/
theorem execA_good (cfg : Config) (env : EnvA) :
    ∀ fuel act m, GoodTrace m.trace → GoodTrace (execA cfg env fuel act m).2.trace := by
  intro fuel
  induction fuel with
  | zero => intro act m h; simpa [execA] using h
  | succ fuel ih =>
    intro act m h
    cases act with
    | req method endpoint params data headers =>
      simp only [execA]
      split
      · have hE := ih .logIn m h
        split
        next e m1 heq => rw [heq] at hE; simpa using hE
        next b m1 heq => rw [heq] at hE; exact reqCoreA_good cfg env _ _ _ _ _ hE
      · exact reqCoreA_good cfg env _ _ _ _ _ h
    | logIn =>
      simp only [execA]
      split
      next status text hr =>
        simpa [afterLoginErrA] using goodTrace_append h (goodTrace_single (Or.inl rfl))
      next cst xst cur hr =>
        split
        · have hg2 : GoodTrace (afterLoginOkA cfg m cst xst).trace := by
            simpa [afterLoginOkA] using
              goodTrace_append h (goodTrace_single (Or.inl rfl))
          have hE := ih (.switchAcct (afterLoginOkA cfg m cst xst).st.account_id false)
            (afterLoginOkA cfg m cst xst) hg2
          split
          next e m3 heq => rw [heq] at hE; simpa using hE
          next b m3 heq => rw [heq] at hE; simpa using hE
        · simpa [afterLoginOkA] using
            goodTrace_append h (goodTrace_single (Or.inl rfl))
    | switchAcct aid defAcc =>
      simp only [execA]
      have hE := ih (.req "PUT" "session" none (some (.switchPayload aid defAcc))
        (some [("Version", "1")])) m h
      split
      next e m1 heq => rw [heq] at hE; simpa using hE
      next body m1 heq => rw [heq] at hE; simpa using hE

@[simp] theorem afterLoginErrB_st (cfg : Config) (m : MachB) (s : Nat) (t : String) :
    (afterLoginErrB cfg m s t).st = m.st := rfl

@[simp] theorem afterLoginErrB_trace (cfg : Config) (m : MachB) (s : Nat) (t : String) :
    (afterLoginErrB cfg m s t).trace = m.trace ++ [loginEventB cfg m] := rfl

@[simp] theorem afterLoginOkB_account (cfg : Config) (env : EnvB) (m : MachB)
    (aid : String) (tok : OAuthToken) :
    (afterLoginOkB cfg env m aid tok).st.account_id = m.st.account_id := rfl

@[simp] theorem afterLoginOkB_pop (cfg : Config) (env : EnvB) (m : MachB)
    (aid : String) (tok : OAuthToken) :
    popB (afterLoginOkB cfg env m aid tok).st = true := rfl

@[simp] theorem afterLoginOkB_trace (cfg : Config) (env : EnvB) (m : MachB)
    (aid : String) (tok : OAuthToken) :
    (afterLoginOkB cfg env m aid tok).trace = m.trace ++ [loginEventB cfg m] := rfl

@[simp] theorem afterRefreshFailB_st (cfg : Config) (m : MachB) (rt : String)
    (s : Nat) (t : String) : (afterRefreshFailB cfg m rt s t).st = m.st := rfl

@[simp] theorem afterRefreshFailB_trace (cfg : Config) (m : MachB) (rt : String)
    (s : Nat) (t : String) :
    (afterRefreshFailB cfg m rt s t).trace = m.trace ++ [refreshEventB cfg m rt] := rfl

/-- The post-login request core of Variant B does not modify the session
state. -/
theorem reqCoreB_st (cfg : Config) (env : EnvB) (method endpoint : String)
    (data : Option Payload) (headers : Option Headers) (m3 : MachB) :
    (reqCoreB cfg env method endpoint data headers m3).2.st = m3.st := by
  unfold reqCoreB
  split
  · rfl
  · simp only [dispatchGenericB]
    split <;> rfl

/-- The post-login request core of Variant B preserves the trace discipline
when the credential state is populated. -/
theorem reqCoreB_good (cfg : Config) (env : EnvB) (method endpoint : String)
    (data : Option Payload) (headers : Option Headers) (m3 : MachB)
    (hp : popB m3.st = true) (h : GoodTrace m3.trace) :
    GoodTrace (reqCoreB cfg env method endpoint data headers m3).2.trace := by
  unfold reqCoreB
  split
  next => simpa using h
  next auth hauth =>
    simp only [dispatchGenericB]
    split <;> exact goodTrace_append h (goodTrace_single (Or.inr (Or.inr hp)))

/-- Bundled facts about the Variant B request core from a populated state:
the invariant holds afterwards, the state stays populated, and the trace
discipline is preserved. -/
theorem reqCoreB_master (cfg : Config) (env : EnvB) (method endpoint : String)
    (data : Option Payload) (headers : Option Headers) (m3 : MachB)
    (hp : popB m3.st = true) :
    InvB (reqCoreB cfg env method endpoint data headers m3).2.st ∧
    (∀ b, (reqCoreB cfg env method endpoint data headers m3).1 = .ok b →
      popB (reqCoreB cfg env method endpoint data headers m3).2.st = true) ∧
    (GoodTrace m3.trace →
      GoodTrace (reqCoreB cfg env method endpoint data headers m3).2.trace) := by
  refine ⟨?_, ?_, ?_⟩
  · rw [InvB, reqCoreB_st]; exact Or.inr hp
  · intro b _; rw [reqCoreB_st]; exact hp
  · exact reqCoreB_good cfg env method endpoint data headers m3 hp

/-- Master invariant lemma for Variant B: from a state satisfying the
all-or-none credential invariant, every internal operation preserves the
invariant, leaves the credential state fully populated whenever it returns
successfully, and preserves the trace discipline. -/
theorem execB_master (cfg : Config) (env : EnvB) :
    ∀ fuel act m, InvB m.st →
      InvB (execB cfg env fuel act m).2.st ∧
      (∀ b, (execB cfg env fuel act m).1 = .ok b →
        popB (execB cfg env fuel act m).2.st = true) ∧
      (GoodTrace m.trace → GoodTrace (execB cfg env fuel act m).2.trace) := by
  intro fuel
  induction fuel with
  | zero =>
    intro act m hInv
    refine ⟨by simpa [execB] using hInv, ?_, by intro h; simpa [execB] using h⟩
    intro b hb
    simp [execB] at hb
  | succ fuel ih =>
    intro act m hInv
    cases act with
    | req method endpoint params data headers =>
      simp only [execB]
      by_cases hg : (m.st.oauth_token.isNone || m.st.authorization_headers.isNone) = true
      · rw [if_pos hg]
        obtain ⟨hInv1, hOk1, hG1⟩ := ih .logIn m hInv
        split
        next e m1 heq =>
          rw [heq] at hInv1 hG1
          exact ⟨hInv1, by intro b hb; simp at hb, hG1⟩
        next b0 m1 heq =>
          rw [heq] at hInv1 hOk1 hG1
          have hp1 : popB m1.st = true := hOk1 b0 rfl
          simp only [tickB]
          split
          next hexp =>
            exact ⟨hInv1, by intro b hb; simp at hb, hG1⟩
          next expiry hexp =>
            by_cases hnr : needsRefreshB cfg.timeout (env.clock m1.nClock) expiry = true
            · rw [if_pos hnr]
              obtain ⟨hInv2, hOk2, hG2⟩ := ih .refreshTok { m1 with nClock := m1.nClock + 1 }
                (by simpa [InvB] using hInv1)
              split
              next e m3 heq2 =>
                rw [heq2] at hInv2 hG2
                exact ⟨hInv2, by intro b hb; simp at hb, fun h => hG2 (hG1 h)⟩
              next b1 m3 heq2 =>
                rw [heq2] at hInv2 hOk2 hG2
                have hp3 : popB m3.st = true := hOk2 b1 rfl
                obtain ⟨c1, c2, c3⟩ := reqCoreB_master cfg env method endpoint data headers m3 hp3
                exact ⟨c1, c2, fun h => c3 (hG2 (hG1 h))⟩
            · rw [if_neg hnr]
              obtain ⟨c1, c2, c3⟩ := reqCoreB_master cfg env method endpoint data headers
                { m1 with nClock := m1.nClock + 1 } (by simpa [popB] using hp1)
              exact ⟨c1, c2, fun h => c3 (hG1 h)⟩
      · rw [if_neg hg]
        simp only [Bool.or_eq_true, Option.isNone_iff_eq_none, not_or] at hg
        obtain ⟨hg1, hg2⟩ := hg
        have hp : popB m.st = true := by
          rcases hInv with ⟨h1, _, _⟩ | hp
          · exact absurd h1 hg1
          · exact hp
        simp only [tickB]
        split
        next hexp =>
          exact ⟨by simpa [InvB] using hInv, by intro b hb; simp at hb, fun h => h⟩
        next expiry hexp =>
          by_cases hnr : needsRefreshB cfg.timeout (env.clock m.nClock) expiry = true
          · rw [if_pos hnr]
            obtain ⟨hInv2, hOk2, hG2⟩ := ih .refreshTok { m with nClock := m.nClock + 1 }
              (by simpa [InvB] using hInv)
            split
            next e m3 heq2 =>
              rw [heq2] at hInv2 hG2
              exact ⟨hInv2, by intro b hb; simp at hb, hG2⟩
            next b1 m3 heq2 =>
              rw [heq2] at hInv2 hOk2 hG2
              have hp3 : popB m3.st = true := hOk2 b1 rfl
              obtain ⟨c1, c2, c3⟩ := reqCoreB_master cfg env method endpoint data headers m3 hp3
              exact ⟨c1, c2, fun h => c3 (hG2 h)⟩
          · rw [if_neg hnr]
            obtain ⟨c1, c2, c3⟩ := reqCoreB_master cfg env method endpoint data headers
              { m with nClock := m.nClock + 1 } (by simpa [popB] using hp)
            exact ⟨c1, c2, fun h => c3 h⟩
    | logIn =>
      simp only [execB]
      split
      next status text hr =>
        refine ⟨by simpa [InvB] using hInv, by intro b hb; simp at hb, ?_⟩
        intro h
        rw [afterLoginErrB_trace]
        exact goodTrace_append h (goodTrace_single (Or.inr (Or.inl rfl)))
      next accountId tok hr =>
        have hg4 : ∀ h : GoodTrace m.trace,
            GoodTrace (afterLoginOkB cfg env m accountId tok).trace := by
          intro h
          rw [afterLoginOkB_trace]
          exact goodTrace_append h (goodTrace_single (Or.inr (Or.inl rfl)))
        split
        · obtain ⟨hInv5, hOk5, hG5⟩ := ih
            (.switchAcct (afterLoginOkB cfg env m accountId tok).st.account_id false)
            (afterLoginOkB cfg env m accountId tok)
            (Or.inr (afterLoginOkB_pop cfg env m accountId tok))
          split
          next e m5 heq =>
            rw [heq] at hInv5 hG5
            exact ⟨hInv5, by intro b hb; simp at hb, fun h => hG5 (hg4 h)⟩
          next b5 m5 heq =>
            rw [heq] at hInv5 hOk5 hG5
            exact ⟨hInv5, fun b _ => hOk5 b5 rfl, fun h => hG5 (hg4 h)⟩
        · exact ⟨Or.inr (afterLoginOkB_pop cfg env m accountId tok),
            fun b _ => afterLoginOkB_pop cfg env m accountId tok,
            hg4⟩
    | refreshTok =>
      simp only [execB]
      split
      next hoauth =>
        exact ⟨hInv, by intro b hb; simp at hb, fun h => h⟩
      next tok hoauth =>
        have hp : popB m.st = true := by
          rcases hInv with ⟨h1, _, _⟩ | hp
          · rw [hoauth] at h1; exact absurd h1 (by simp)
          · exact hp
        split
        next status text hr =>
          obtain ⟨hInv1, hOk1, hG1⟩ := ih .logIn
            (afterRefreshFailB cfg m tok.refresh_token status text)
            (by simpa [InvB] using hInv)
          refine ⟨hInv1, hOk1, ?_⟩
          intro h
          refine hG1 ?_
          rw [afterRefreshFailB_trace]
          exact goodTrace_append h (goodTrace_single (Or.inr (Or.inr hp)))
        next tok2 hr =>
          have hhdr : m.st.authorization_headers.isSome = true := by
            simp only [popB, Bool.and_eq_true] at hp
            exact hp.1.2
          split
          next hauth =>
            rw [hauth] at hhdr
            simp at hhdr
          next hd hauth =>
            simp only [tickB]
            refine ⟨Or.inr ?_, fun b _ => ?_, ?_⟩
            · rfl
            · rfl
            · intro h
              exact goodTrace_append h (goodTrace_single (Or.inr (Or.inr hp)))
    | switchAcct aid defAcc =>
      obtain ⟨hInv1, hOk1, hG1⟩ := ih (.req "PUT" "session" none
        (some (.switchPayload aid defAcc)) (some [("Version", "1")])) m hInv
      simp only [execB]
      split
      next e m1 heq =>
        rw [heq] at hInv1 hG1
        exact ⟨hInv1, by intro b hb; simp at hb, hG1⟩
      next body m1 heq =>
        rw [heq] at hInv1 hOk1 hG1
        have hp1 : popB m1.st = true := hOk1 body rfl
        simp only [popB, Bool.and_eq_true] at hp1
        cases hnone : m1.st.authorization_headers with
        | none =>
          rw [hnone] at hp1
          simp at hp1
        | some hd =>
          simp only [setAccountIdB, hnone]
          refine ⟨Or.inr ?_, fun b _ => ?_, hG1⟩
          · simp only [popB, Bool.and_eq_true]
            exact ⟨⟨hp1.1.1, rfl⟩, hp1.2⟩
          · simp only [popB, Bool.and_eq_true]
            exact ⟨⟨hp1.1.1, rfl⟩, hp1.2⟩

/-- The Variant A request core never changes the tracked account id. -/
theorem reqCoreA_account (cfg : Config) (env : EnvA) (method endpoint : String)
    (data : Option Payload) (headers : Option Headers) (m1 : MachA) :
    (reqCoreA cfg env method endpoint data headers m1).2.st.account_id = m1.st.account_id := by
  unfold reqCoreA
  split
  · rfl
  · simp only [dispatchGenericA]
    split <;> rfl

@[simp] theorem afterLoginOkA_account (cfg : Config) (m : MachA) (cst xst : String) :
    (afterLoginOkA cfg m cst xst).st.account_id = m.st.account_id := rfl

@[simp] theorem afterLoginErrA_st (cfg : Config) (m : MachA) (s : Nat) (t : String) :
    (afterLoginErrA cfg m s t).st = m.st := rfl

@[simp] theorem afterLoginErrA_trace (cfg : Config) (m : MachA) (s : Nat) (t : String) :
    (afterLoginErrA cfg m s t).trace = m.trace ++ [loginEventA cfg m] := rfl

@[simp] theorem afterLoginOkA_trace (cfg : Config) (m : MachA) (cst xst : String) :
    (afterLoginOkA cfg m cst xst).trace = m.trace ++ [loginEventA cfg m] := rfl

/-- Account-id behaviour of Variant A's internal operations: `_request` and
`_log_in` never change the tracked account id (a login's implicit switch
re-asserts the current id); `switch_session_account` sets it to its argument
exactly when it returns successfully and leaves it unchanged when it raises. -/
theorem execA_account (cfg : Config) (env : EnvA) : ∀ fuel : Nat,
    (∀ method endpoint params data headers m,
      (execA cfg env fuel (.req method endpoint params data headers) m).2.st.account_id
        = m.st.account_id)
    ∧ (∀ m, (execA cfg env fuel .logIn m).2.st.account_id = m.st.account_id)
    ∧ (∀ aid defAcc m,
        (execA cfg env fuel (.switchAcct aid defAcc) m).2.st.account_id =
          match (execA cfg env fuel (.switchAcct aid defAcc) m).1 with
          | .ok _ => aid
          | .error _ => m.st.account_id) := by
  intro fuel
  induction fuel with
  | zero => exact ⟨fun _ _ _ _ _ _ => by simp [execA], fun _ => by simp [execA],
      fun _ _ _ => by simp [execA]⟩
  | succ fuel ih =>
    obtain ⟨ihReq, ihLog, ihSw⟩ := ih
    refine ⟨?_, ?_, ?_⟩
    · intro method endpoint params data headers m
      simp only [execA]
      split
      · have hL := ihLog m
        split
        next e m1 heq => rw [heq] at hL; simpa using hL
        next b m1 heq =>
          rw [heq] at hL
          rw [reqCoreA_account]
          simpa using hL
      · rw [reqCoreA_account]
    · intro m
      simp only [execA]
      split
      next status text hr => simp
      next cst xst cur hr =>
        split
        · have hS := ihSw (afterLoginOkA cfg m cst xst).st.account_id false
            (afterLoginOkA cfg m cst xst)
          split
          next e m3 heq =>
            rw [heq] at hS
            simpa using hS
          next b m3 heq =>
            rw [heq] at hS
            simpa using hS
        · simp
    · intro aid defAcc m
      simp only [execA]
      have hR := ihReq "PUT" "session" none (some (.switchPayload aid defAcc))
        (some [("Version", "1")]) m
      split
      next e m1 heq => rw [heq] at hR; simpa using hR
      next body m1 heq => rfl

/-- Account-id behaviour of Variant B's internal operations, from any state
satisfying the all-or-none credential invariant: `_request`, `_log_in` and
`_refresh_token` never change the tracked account id, and
`switch_session_account` sets it to its argument exactly when it returns
successfully. -/
theorem execB_account (cfg : Config) (env : EnvB) : ∀ fuel : Nat,
    (∀ method endpoint params data headers m, InvB m.st →
      (execB cfg env fuel (.req method endpoint params data headers) m).2.st.account_id
        = m.st.account_id)
    ∧ (∀ m, InvB m.st → (execB cfg env fuel .logIn m).2.st.account_id = m.st.account_id)
    ∧ (∀ m, InvB m.st → (execB cfg env fuel .refreshTok m).2.st.account_id = m.st.account_id)
    ∧ (∀ aid defAcc m, InvB m.st →
        (execB cfg env fuel (.switchAcct aid defAcc) m).2.st.account_id =
          match (execB cfg env fuel (.switchAcct aid defAcc) m).1 with
          | .ok _ => aid
          | .error _ => m.st.account_id) := by
  intro fuel
  induction fuel with
  | zero => exact ⟨fun _ _ _ _ _ _ _ => by simp [execB], fun _ _ => by simp [execB],
      fun _ _ => by simp [execB], fun _ _ _ _ => by simp [execB]⟩
  | succ fuel ih =>
    obtain ⟨ihReq, ihLog, ihRef, ihSw⟩ := ih
    refine ⟨?_, ?_, ?_, ?_⟩
    · intro method endpoint params data headers m hInv
      simp only [execB]
      by_cases hg : (m.st.oauth_token.isNone || m.st.authorization_headers.isNone) = true
      · rw [if_pos hg]
        have hL := ihLog m hInv
        obtain ⟨hInv1, _, _⟩ := execB_master cfg env fuel .logIn m hInv
        split
        next e m1 heq => rw [heq] at hL; simpa using hL
        next b m1 heq =>
          rw [heq] at hL hInv1
          simp only [tickB]
          split
          next => simpa using hL
          next expiry hexp =>
            by_cases hnr : needsRefreshB cfg.timeout (env.clock m1.nClock) expiry = true
            · rw [if_pos hnr]
              have hRf := ihRef { m1 with nClock := m1.nClock + 1 } (by simpa [InvB] using hInv1)
              split
              next e m3 heq2 => rw [heq2] at hRf; simp at hRf; rw [hRf]; simpa using hL
              next b1 m3 heq2 =>
                rw [heq2] at hRf
                simp at hRf
                rw [reqCoreB_st, hRf]
                simpa using hL
            · rw [if_neg hnr]
              rw [reqCoreB_st]
              simpa using hL
      · rw [if_neg hg]
        simp only [tickB]
        split
        next => rfl
        next expiry hexp =>
          by_cases hnr : needsRefreshB cfg.timeout (env.clock m.nClock) expiry = true
          · rw [if_pos hnr]
            have hRf := ihRef { m with nClock := m.nClock + 1 } (by simpa [InvB] using hInv)
            split
            next e m3 heq2 => rw [heq2] at hRf; simpa using hRf
            next b1 m3 heq2 =>
              rw [heq2] at hRf
              rw [reqCoreB_st]
              simpa using hRf
          · rw [if_neg hnr]
            rw [reqCoreB_st]
    · intro m hInv
      simp only [execB]
      split
      next status text hr => simp
      next accountId tok hr =>
        split
        · have hS := ihSw (afterLoginOkB cfg env m accountId tok).st.account_id false
            (afterLoginOkB cfg env m accountId tok)
            (Or.inr (afterLoginOkB_pop cfg env m accountId tok))
          split
          next e m5 heq => rw [heq] at hS; simpa using hS
          next b5 m5 heq => rw [heq] at hS; simpa using hS
        · simp
    · intro m hInv
      simp only [execB]
      split
      next => rfl
      next tok hoauth =>
        split
        next status text hr =>
          have hL := ihLog (afterRefreshFailB cfg m tok.refresh_token status text)
            (by simpa [InvB] using hInv)
          simpa using hL
        next tok2 hr =>
          split
          next => rfl
          next hd hauth => simp [tickB]
    · intro aid defAcc m hInv
      simp only [execB]
      have hR := ihReq "PUT" "session" none (some (.switchPayload aid defAcc))
        (some [("Version", "1")]) m hInv
      obtain ⟨_, hOk1, _⟩ := execB_master cfg env fuel (.req "PUT" "session" none
        (some (.switchPayload aid defAcc)) (some [("Version", "1")])) m hInv
      split
      next e m1 heq => rw [heq] at hR; simpa using hR
      next body m1 heq =>
        rw [heq] at hOk1
        have hp1 : popB m1.st = true := hOk1 body rfl
        simp only [popB, Bool.and_eq_true] at hp1
        cases hnone : m1.st.authorization_headers with
        | none => rw [hnone] at hp1; simp at hp1
        | some hd => simp only [setAccountIdB, hnone]

/-- The Variant A request core preserves the credential-shape invariant. -/
theorem reqCoreA_inv (cfg : Config) (env : EnvA) (method endpoint : String)
    (data : Option Payload) (headers : Option Headers) (m1 : MachA)
    (h : InvA m1.st) : InvA (reqCoreA cfg env method endpoint data headers m1).2.st := by
  unfold reqCoreA
  split
  next => exact h
  next auth hauth =>
    rcases h with hnone | ⟨c, x, hcx⟩
    · rw [hauth] at hnone; exact absurd hnone (by simp)
    · rw [hauth] at hcx
      injection hcx with hcx
      subst hcx
      simp only [dispatchGenericA]
      split
      next hok =>
        obtain ⟨c', x', hrot⟩ := rotateHeaders_shape c x
          (env.genericResp m1.nGeneric).headers
        exact Or.inr ⟨c', x', by simp [hrot]⟩
      next hok => exact Or.inr ⟨c, x, by simpa using hauth⟩

/-- Every Variant A internal operation preserves the credential-shape
invariant: the stored authorization headers are either absent or exactly the
two-token dictionary. -/
theorem execA_inv (cfg : Config) (env : EnvA) :
    ∀ fuel act m, InvA m.st → InvA (execA cfg env fuel act m).2.st := by
  intro fuel
  induction fuel with
  | zero => intro act m h; simpa [execA] using h
  | succ fuel ih =>
    intro act m h
    cases act with
    | req method endpoint params data headers =>
      simp only [execA]
      split
      · have hL := ih .logIn m h
        split
        next e m1 heq => rw [heq] at hL; simpa using hL
        next b m1 heq =>
          rw [heq] at hL
          exact reqCoreA_inv cfg env _ _ _ _ _ hL
      · exact reqCoreA_inv cfg env _ _ _ _ _ h
    | logIn =>
      simp only [execA]
      split
      next status text hr => simpa using h
      next cst xst cur hr =>
        have h2 : InvA (afterLoginOkA cfg m cst xst).st :=
          Or.inr ⟨cst, xst, rfl⟩
        split
        · have hS := ih (.switchAcct (afterLoginOkA cfg m cst xst).st.account_id false)
            (afterLoginOkA cfg m cst xst) h2
          split
          next e m3 heq => rw [heq] at hS; simpa using hS
          next b m3 heq => rw [heq] at hS; simpa using hS
        · exact h2
    | switchAcct aid defAcc =>
      simp only [execA]
      have hR := ih (.req "PUT" "session" none (some (.switchPayload aid defAcc))
        (some [("Version", "1")])) m h
      split
      next e m1 heq => rw [heq] at hR; simpa using hR
      next body m1 heq =>
        rw [heq] at hR
        rcases hR with hnone | ⟨c, x, hcx⟩
        · exact Or.inl hnone
        · exact Or.inr ⟨c, x, hcx⟩

/-- `session_details`' post-processing does not touch the machine. -/
theorem sessionDetailsCheck_snd {M : Type} (account_id : String)
    (p : Except Err RespBody × M) :
    (sessionDetailsCheck account_id p).2 = p.2 := by
  unfold sessionDetailsCheck
  split
  · rfl
  · split
    · rfl
    · split <;> rfl

/-- Public Variant A operations preserve the trace discipline. -/
theorem runOpA_good (cfg : Config) (env : EnvA) (fuel : Nat) (op : PubOp) (m : MachA)
    (h : GoodTrace m.trace) : GoodTrace (runOpA cfg env fuel op m).2.trace := by
  cases op with
  | get endpoint params data headers => exact execA_good cfg env fuel _ m h
  | post endpoint params data headers => exact execA_good cfg env fuel _ m h
  | put endpoint params data headers => exact execA_good cfg env fuel _ m h
  | delete endpoint params data headers => exact execA_good cfg env fuel _ m h
  | switchAccount aid defAcc => exact execA_good cfg env fuel _ m h
  | sessionDetails =>
    simp only [runOpA, sessionDetailsCheck_snd]
    exact execA_good cfg env fuel _ m h
  | logOut =>
    simp only [runOpA]
    have hE := execA_good cfg env fuel
      (.req "DELETE" "session" none none (some [("Version", "1")])) m h
    split
    next e m1 heq => rw [heq] at hE; simpa using hE
    next b m1 heq => rw [heq] at hE; simpa using hE

/-- Public Variant A operations preserve the credential-shape invariant. -/
theorem runOpA_inv (cfg : Config) (env : EnvA) (fuel : Nat) (op : PubOp) (m : MachA)
    (h : InvA m.st) : InvA (runOpA cfg env fuel op m).2.st := by
  cases op with
  | get endpoint params data headers => exact execA_inv cfg env fuel _ m h
  | post endpoint params data headers => exact execA_inv cfg env fuel _ m h
  | put endpoint params data headers => exact execA_inv cfg env fuel _ m h
  | delete endpoint params data headers => exact execA_inv cfg env fuel _ m h
  | switchAccount aid defAcc => exact execA_inv cfg env fuel _ m h
  | sessionDetails =>
    simp only [runOpA, sessionDetailsCheck_snd]
    exact execA_inv cfg env fuel _ m h
  | logOut =>
    simp only [runOpA]
    have hE := execA_inv cfg env fuel
      (.req "DELETE" "session" none none (some [("Version", "1")])) m h
    split
    next e m1 heq => rw [heq] at hE; simpa using hE
    next b m1 heq => rw [heq] at hE; simpa using hE

/-- Public Variant B operations preserve the trace discipline and the
all-or-none credential invariant. -/
theorem runOpB_master (cfg : Config) (env : EnvB) (fuel : Nat) (op : PubOp) (m : MachB)
    (h : InvB m.st) :
    InvB (runOpB cfg env fuel op m).2.st ∧
    (GoodTrace m.trace → GoodTrace (runOpB cfg env fuel op m).2.trace) := by
  cases op with
  | get endpoint params data headers =>
    obtain ⟨h1, _, h3⟩ := execB_master cfg env fuel _ m h; exact ⟨h1, h3⟩
  | post endpoint params data headers =>
    obtain ⟨h1, _, h3⟩ := execB_master cfg env fuel _ m h; exact ⟨h1, h3⟩
  | put endpoint params data headers =>
    obtain ⟨h1, _, h3⟩ := execB_master cfg env fuel _ m h; exact ⟨h1, h3⟩
  | delete endpoint params data headers =>
    obtain ⟨h1, _, h3⟩ := execB_master cfg env fuel _ m h; exact ⟨h1, h3⟩
  | switchAccount aid defAcc =>
    obtain ⟨h1, _, h3⟩ := execB_master cfg env fuel _ m h; exact ⟨h1, h3⟩
  | sessionDetails =>
    obtain ⟨h1, _, h3⟩ := execB_master cfg env fuel
      (.req "GET" "session" none none (some [("Version", "1")])) m h
    constructor
    · simp only [runOpB, sessionDetailsCheck_snd]
      exact h1
    · intro hg
      simp only [runOpB, sessionDetailsCheck_snd]
      exact h3 hg
  | logOut =>
    obtain ⟨h1, _, h3⟩ := execB_master cfg env fuel
      (.req "DELETE" "session" none none (some [("Version", "1")])) m h
    constructor
    · simp only [runOpB]
      split
      next e m1 heq => rw [heq] at h1; simpa using h1
      next b m1 heq => rw [heq] at h1; simpa using h1
    · intro hg
      simp only [runOpB]
      split
      next e m1 heq => rw [heq] at h3; simpa using h3 hg
      next b m1 heq => rw [heq] at h3; simpa using h3 hg

/-- The Variant A request core only appends to the trace. -/
theorem reqCoreA_trace (cfg : Config) (env : EnvA) (method endpoint : String)
    (data : Option Payload) (headers : Option Headers) (m1 : MachA) :
    ∃ d, (reqCoreA cfg env method endpoint data headers m1).2.trace = m1.trace ++ d := by
  unfold reqCoreA
  split
  next => exact ⟨[], by simp⟩
  next auth hauth =>
    simp only [dispatchGenericA]
    split
    next => exact ⟨_, rfl⟩
    next => exact ⟨_, rfl⟩

/-- Variant A operations only append to the trace. -/
theorem execA_trace_mono (cfg : Config) (env : EnvA) :
    ∀ fuel act m, ∃ d, (execA cfg env fuel act m).2.trace = m.trace ++ d := by
  intro fuel
  induction fuel with
  | zero => intro act m; exact ⟨[], by simp [execA]⟩
  | succ fuel ih =>
    intro act m
    cases act with
    | req method endpoint params data headers =>
      simp only [execA]
      split
      · obtain ⟨d1, hd1⟩ := ih .logIn m
        split
        next e m1 heq =>
          rw [heq] at hd1
          exact ⟨d1, by simpa using hd1⟩
        next b m1 heq =>
          rw [heq] at hd1
          obtain ⟨d2, hd2⟩ := reqCoreA_trace cfg env method endpoint data headers m1
          exact ⟨d1 ++ d2, by rw [hd2]; simp only at hd1; rw [hd1, List.append_assoc]⟩
      · exact reqCoreA_trace cfg env method endpoint data headers m
    | logIn =>
      simp only [execA]
      split
      next status text hr => exact ⟨[loginEventA cfg m], by simp⟩
      next cst xst cur hr =>
        split
        · obtain ⟨d1, hd1⟩ := ih (.switchAcct (afterLoginOkA cfg m cst xst).st.account_id false)
            (afterLoginOkA cfg m cst xst)
          rw [afterLoginOkA_trace] at hd1
          split
          next e m3 heq =>
            rw [heq] at hd1
            exact ⟨loginEventA cfg m :: d1, by simpa using hd1⟩
          next b m3 heq =>
            rw [heq] at hd1
            exact ⟨loginEventA cfg m :: d1, by simpa using hd1⟩
        · exact ⟨[loginEventA cfg m], by simp⟩
    | switchAcct aid defAcc =>
      simp only [execA]
      obtain ⟨d1, hd1⟩ := ih (.req "PUT" "session" none (some (.switchPayload aid defAcc))
        (some [("Version", "1")])) m
      split
      next e m1 heq => rw [heq] at hd1; exact ⟨d1, by simpa using hd1⟩
      next body m1 heq => rw [heq] at hd1; exact ⟨d1, by simpa using hd1⟩

/-- The `_set_account_id` step of Variant B does not touch the trace. -/
theorem setAccountIdB_trace (m : MachB) (aid : String) :
    (setAccountIdB m aid).2.trace = m.trace := by
  unfold setAccountIdB
  split <;> rfl

/-- The Variant B request core only appends to the trace. -/
theorem reqCoreB_trace (cfg : Config) (env : EnvB) (method endpoint : String)
    (data : Option Payload) (headers : Option Headers) (m3 : MachB) :
    ∃ d, (reqCoreB cfg env method endpoint data headers m3).2.trace = m3.trace ++ d := by
  unfold reqCoreB
  split
  next => exact ⟨[], by simp⟩
  next auth hauth =>
    simp only [dispatchGenericB]
    split
    next => exact ⟨_, rfl⟩
    next => exact ⟨_, rfl⟩

/-- Variant B operations only append to the trace. -/
theorem execB_trace_mono (cfg : Config) (env : EnvB) :
    ∀ fuel act m, ∃ d, (execB cfg env fuel act m).2.trace = m.trace ++ d := by
  intro fuel
  induction fuel with
  | zero => intro act m; exact ⟨[], by simp [execB]⟩
  | succ fuel ih =>
    intro act m
    cases act with
    | req method endpoint params data headers =>
      simp only [execB]
      by_cases hg : (m.st.oauth_token.isNone || m.st.authorization_headers.isNone) = true
      · rw [if_pos hg]
        obtain ⟨d1, hd1⟩ := ih .logIn m
        split
        next e m1 heq => rw [heq] at hd1; exact ⟨d1, by simpa using hd1⟩
        next b m1 heq =>
          rw [heq] at hd1
          simp only at hd1
          simp only [tickB]
          split
          next => exact ⟨d1, hd1⟩
          next expiry hexp =>
            by_cases hnr : needsRefreshB cfg.timeout (env.clock m1.nClock) expiry = true
            · rw [if_pos hnr]
              obtain ⟨d2, hd2⟩ := ih .refreshTok { m1 with nClock := m1.nClock + 1 }
              simp only at hd2
              split
              next e m3 heq2 =>
                rw [heq2] at hd2
                exact ⟨d1 ++ d2, by simp only at hd2 ⊢; rw [hd2, hd1, List.append_assoc]⟩
              next b1 m3 heq2 =>
                rw [heq2] at hd2
                obtain ⟨d3, hd3⟩ := reqCoreB_trace cfg env method endpoint data headers m3
                refine ⟨d1 ++ (d2 ++ d3), ?_⟩
                rw [hd3]
                simp only at hd2
                rw [hd2, hd1]
                simp [List.append_assoc]
            · rw [if_neg hnr]
              obtain ⟨d3, hd3⟩ := reqCoreB_trace cfg env method endpoint data headers
                { m1 with nClock := m1.nClock + 1 }
              refine ⟨d1 ++ d3, ?_⟩
              rw [hd3]
              simp only at hd3 ⊢
              rw [hd1, List.append_assoc]
      · rw [if_neg hg]
        simp only [tickB]
        split
        next => exact ⟨[], by simp⟩
        next expiry hexp =>
          by_cases hnr : needsRefreshB cfg.timeout (env.clock m.nClock) expiry = true
          · rw [if_pos hnr]
            obtain ⟨d2, hd2⟩ := ih .refreshTok { m with nClock := m.nClock + 1 }
            simp only at hd2
            split
            next e m3 heq2 => rw [heq2] at hd2; exact ⟨d2, by simpa using hd2⟩
            next b1 m3 heq2 =>
              rw [heq2] at hd2
              obtain ⟨d3, hd3⟩ := reqCoreB_trace cfg env method endpoint data headers m3
              refine ⟨d2 ++ d3, ?_⟩
              rw [hd3]
              simp only at hd2
              rw [hd2, List.append_assoc]
          · rw [if_neg hnr]
            obtain ⟨d3, hd3⟩ := reqCoreB_trace cfg env method endpoint data headers
              { m with nClock := m.nClock + 1 }
            exact ⟨d3, by simpa using hd3⟩
    | logIn =>
      simp only [execB]
      split
      next status text hr => exact ⟨[loginEventB cfg m], by simp⟩
      next accountId tok hr =>
        split
        · obtain ⟨d1, hd1⟩ := ih
            (.switchAcct (afterLoginOkB cfg env m accountId tok).st.account_id false)
            (afterLoginOkB cfg env m accountId tok)
          rw [afterLoginOkB_trace] at hd1
          split
          next e m5 heq => rw [heq] at hd1; exact ⟨loginEventB cfg m :: d1, by simpa using hd1⟩
          next b5 m5 heq => rw [heq] at hd1; exact ⟨loginEventB cfg m :: d1, by simpa using hd1⟩
        · exact ⟨[loginEventB cfg m], by simp⟩
    | refreshTok =>
      simp only [execB]
      split
      next => exact ⟨[], by simp⟩
      next tok hoauth =>
        split
        next status text hr =>
          obtain ⟨d1, hd1⟩ := ih .logIn (afterRefreshFailB cfg m tok.refresh_token status text)
          rw [afterRefreshFailB_trace] at hd1
          exact ⟨refreshEventB cfg m tok.refresh_token :: d1, by simpa using hd1⟩
        next tok2 hr =>
          split
          next => exact ⟨[refreshEventB cfg m tok.refresh_token], by simp⟩
          next hd hauth =>
            exact ⟨[refreshEventB cfg m tok.refresh_token], by simp [tickB]⟩
    | switchAcct aid defAcc =>
      simp only [execB]
      obtain ⟨d1, hd1⟩ := ih (.req "PUT" "session" none (some (.switchPayload aid defAcc))
        (some [("Version", "1")])) m
      split
      next e m1 heq => rw [heq] at hd1; exact ⟨d1, by simpa using hd1⟩
      next body m1 heq =>
        rw [heq] at hd1
        cases hnone : m1.st.authorization_headers with
        | none => simp only [setAccountIdB, hnone]; exact ⟨d1, by simpa using hd1⟩
        | some hd => simp only [setAccountIdB, hnone]; exact ⟨d1, by simpa using hd1⟩

/-- Sequences of public Variant A operations preserve the trace discipline. -/
theorem runOpsA_good (cfg : Config) (env : EnvA) (fuel : Nat) :
    ∀ ops m, GoodTrace m.trace → GoodTrace (runOpsA cfg env fuel ops m).trace := by
  intro ops
  induction ops with
  | nil => intro m h; simpa [runOpsA] using h
  | cons op rest ihr =>
    intro m h
    simp only [runOpsA]
    exact ihr _ (runOpA_good cfg env fuel op m h)

/-- Sequences of public Variant A operations preserve the credential-shape
invariant. -/
theorem runOpsA_inv (cfg : Config) (env : EnvA) (fuel : Nat) :
    ∀ ops m, InvA m.st → InvA (runOpsA cfg env fuel ops m).st := by
  intro ops
  induction ops with
  | nil => intro m h; simpa [runOpsA] using h
  | cons op rest ihr =>
    intro m h
    simp only [runOpsA]
    exact ihr _ (runOpA_inv cfg env fuel op m h)

/-- Sequences of public Variant B operations preserve the credential
invariant and the trace discipline. -/
theorem runOpsB_master (cfg : Config) (env : EnvB) (fuel : Nat) :
    ∀ ops m, InvB m.st → GoodTrace m.trace →
      InvB (runOpsB cfg env fuel ops m).st ∧ GoodTrace (runOpsB cfg env fuel ops m).trace := by
  intro ops
  induction ops with
  | nil => intro m h hg; exact ⟨by simpa [runOpsB] using h, by simpa [runOpsB] using hg⟩
  | cons op rest ihr =>
    intro m h hg
    simp only [runOpsB]
    obtain ⟨h1, h2⟩ := runOpB_master cfg env fuel op m h
    exact ihr _ h1 (h2 hg)

/- ------------------------------------------------------------------ -/
/- Claim theorems                                                      -/
/- ------------------------------------------------------------------ -/

/-- C2: for every sequence of public operations on either variant, every
dispatched transport call is either a login dispatch or goes out with the
credential state populated — no request is sent while the credential state is
still absent, except the login request itself. -/
theorem C2_no_request_before_login (cfg : Config) (envA : EnvA) (envB : EnvB)
    (fuel : Nat) (ops : List PubOp) (aidA aidB : String) :
    GoodTrace (runOpsA cfg envA fuel ops (initA aidA)).trace ∧
    GoodTrace (runOpsB cfg envB fuel ops (initB aidB)).trace := by
  constructor
  · exact runOpsA_good cfg envA fuel ops (initA aidA) (by intro e he; simp [initA] at he)
  · exact (runOpsB_master cfg envB fuel ops (initB aidB)
      (Or.inl ⟨rfl, rfl, rfl⟩) (by intro e he; simp [initB] at he)).2

/-- C9: after every sequence of public operations from a fresh client, the
credential state is either fully absent or fully populated: Variant A's
stored authorization headers are absent or exactly the populated two-token
dictionary, and Variant B's oauth token, authorization headers and expiry
timestamp are all absent or all set. -/
theorem C9_credentials_all_or_none (cfg : Config) (envA : EnvA) (envB : EnvB)
    (fuel : Nat) (ops : List PubOp) (aidA aidB : String) :
    InvA (runOpsA cfg envA fuel ops (initA aidA)).st ∧
    InvB (runOpsB cfg envB fuel ops (initB aidB)).st := by
  constructor
  · exact runOpsA_inv cfg envA fuel ops (initA aidA) (Or.inl rfl)
  · exact (runOpsB_master cfg envB fuel ops (initB aidB)
      (Or.inl ⟨rfl, rfl, rfl⟩) (by intro e he; simp [initB] at he)).1

/-- C10: Variant B's refresh decision compares a projected request-completion
time against the stored expiry: it fires exactly when now plus the projected
duration (the configured timeout when it is a single number, 10.0 seconds
when the timeout is None or a connect/read pair) strictly exceeds the expiry
timestamp; consequently it can fire while now is still before the expiry. -/
theorem C10_refresh_uses_projected_completion_time :
    (∀ (t : TimeoutCfg) (timeNow expiry : ℚ),
      needsRefreshB t timeNow expiry = true ↔ timeNow + projectedDuration t > expiry) ∧
    (needsRefreshB (.single 10) 0 5 = true ∧ (0 : ℚ) < 5) := by
  have hiff : ∀ (t : TimeoutCfg) (timeNow expiry : ℚ),
      needsRefreshB t timeNow expiry = true ↔ timeNow + projectedDuration t > expiry := by
    intro t timeNow expiry
    cases t <;>
      simp [needsRefreshB, timeWhenRequestCompletes, projectedDuration,
        defaultTimeoutInSeconds]
  refine ⟨hiff, ?_, by norm_num⟩
  rw [hiff]
  norm_num [projectedDuration]

instance : DecidableEq (Except Err RespBody) := fun x y =>
  match x, y with
  | .ok a, .ok b => decidable_of_iff (a = b) (by simp)
  | .error a, .error b => decidable_of_iff (a = b) (by simp)
  | .ok _, .error _ => isFalse (by simp)
  | .error _, .ok _ => isFalse (by simp)

/-- The refresh decision in terms of the projected duration. -/
theorem needsRefreshB_iff (t : TimeoutCfg) (timeNow expiry : ℚ) :
    needsRefreshB t timeNow expiry = true ↔ timeNow + projectedDuration t > expiry := by
  cases t <;>
    simp [needsRefreshB, timeWhenRequestCompletes, projectedDuration,
      defaultTimeoutInSeconds]

/-- A refresh operation always dispatches the refresh-token request first,
whatever happens afterwards (success, or failure followed by the fallback
login). -/
theorem execB_refresh_trace (cfg : Config) (env : EnvB) (fuel : Nat) (m : MachB)
    (tok : OAuthToken) (h1 : m.st.oauth_token = some tok) :
    ∃ d, (execB cfg env (fuel + 1) .refreshTok m).2.trace
      = m.trace ++ refreshEventB cfg m tok.refresh_token :: d := by
  simp only [execB, h1]
  cases hr : env.refreshResp m.nRefresh with
  | err status text =>
    obtain ⟨d1, hd1⟩ := execB_trace_mono cfg env fuel .logIn
      (afterRefreshFailB cfg m tok.refresh_token status text)
    rw [afterRefreshFailB_trace] at hd1
    exact ⟨d1, by simpa using hd1⟩
  | ok tok2 =>
    dsimp only
    split
    next hauth => exact ⟨[], by simp⟩
    next hd hauth => exact ⟨[], by simp [tickB]⟩

/-- Behaviour of a Variant B generic request from a logged-in state: when the
refresh decision fires, the refresh-token request is dispatched first, before
the request's own dispatch; when it does not fire, the request's own dispatch
is the only transport call. -/
theorem execB_req_refresh_behaviour (cfg : Config) (env : EnvB) (k : Nat) (m : MachB)
    (tok : OAuthToken) (auth : Headers) (expiry : ℚ)
    (h1 : m.st.oauth_token = some tok)
    (h2 : m.st.authorization_headers = some auth)
    (h3 : m.st.token_expiry_timestamp = some expiry)
    (method endpoint : String) (params data : Option Payload) (headers : Option Headers) :
    (needsRefreshB cfg.timeout (env.clock m.nClock) expiry = true →
      ∃ rest, (execB cfg env (k + 2) (.req method endpoint params data headers) m).2.trace
        = m.trace ++ refreshEventB cfg m tok.refresh_token :: rest) ∧
    (needsRefreshB cfg.timeout (env.clock m.nClock) expiry = false →
      (execB cfg env (k + 2) (.req method endpoint params data headers) m).2.trace
        = m.trace ++ [genericEventB m method endpoint (mergeHeaders cfg auth headers) data]) := by
  constructor
  · intro hfire
    rw [execB]
    simp only [h1, h2, Option.isNone_some, Bool.or_self, Bool.false_eq_true,
      if_false, tickB]
    rw [h3]
    simp only [hfire, if_true]
    obtain ⟨d1, hd1⟩ := execB_refresh_trace cfg env k
      { m with nClock := m.nClock + 1 } tok h1
    have hd1' : ∀ m3 : MachB,
        (execB cfg env (k + 1) .refreshTok { m with nClock := m.nClock + 1 }).2 = m3 →
        m3.trace = m.trace ++ refreshEventB cfg m tok.refresh_token :: d1 := by
      intro m3 hm3
      rw [hm3] at hd1
      exact hd1
    split
    next e m3 heq =>
      exact ⟨d1, hd1' m3 (by rw [heq])⟩
    next b1 m3 heq =>
      obtain ⟨d2, hd2⟩ := reqCoreB_trace cfg env method endpoint data headers m3
      rw [hd2, hd1' m3 (by rw [heq])]
      exact ⟨d1 ++ d2, by simp⟩
  · intro hnofire
    rw [execB]
    simp only [h1, h2, Option.isNone_some, Bool.or_self, Bool.false_eq_true,
      if_false, tickB]
    rw [h3]
    simp only [hnofire, Bool.false_eq_true, if_false]
    unfold reqCoreB
    dsimp only
    rw [h2]
    simp only [dispatchGenericB]
    split <;> rfl

/-- A concrete configuration with a 10-second timeout. -/
def cfgEx : Config :=
  { api_key := "key", username := "user", password := "pass", timeout := .single 10 }

def tokEx : OAuthToken := { access_token := "at1", refresh_token := "rt1", expires_in := 60 }

def okRespEx : Response :=
  { status := 200, text := "", headers := [], hasContent := true,
    body := { accountId := some "ABC123" } }

def authHeadersEx : Headers :=
  [("IG-ACCOUNT-ID", "ABC123"), ("Authorization", "Bearer at1")]

/-- A Variant B machine as it stands after a successful login for account
"ABC123" whose token expires at monotonic time 5. -/
def mB5 : MachB :=
  { st := { account_id := "ABC123", oauth_token := some tokEx,
            authorization_headers := some authHeadersEx,
            token_expiry_timestamp := some 5 },
    nLogin := 1, nRefresh := 0, nGeneric := 0, nClock := 1, trace := [], logs := [] }

/-- A Variant B environment whose monotonic clock always reads 0. -/
def envBzero : EnvB :=
  { loginResp := fun _ => .ok "ABC123" tokEx, refreshResp := fun _ => .ok tokEx,
    genericResp := fun _ => okRespEx, clock := fun _ => 0 }

/-- C1 fails on the code: with a 10-second timeout, stored expiry 5 and
current monotonic time 0, the refresh decision returns true (and a refresh is
dispatched before the request's own dispatch) although the current time is
strictly before the stored expiry timestamp, contradicting "true if and only
if the current time is at or past the stored expiry timestamp". -/
theorem C1_counterexample :
    needsRefreshB cfgEx.timeout (envBzero.clock mB5.nClock) 5 = true ∧
    ¬ (envBzero.clock mB5.nClock ≥ (5 : ℚ)) ∧
    (∃ rest, (execB cfgEx envBzero 5 (.req "GET" "positions" none none none) mB5).2.trace
      = refreshEventB cfgEx mB5 "rt1" :: rest) := by
  have hfire : needsRefreshB cfgEx.timeout (envBzero.clock mB5.nClock) 5 = true := by
    rw [needsRefreshB_iff]
    norm_num [cfgEx, projectedDuration, envBzero]
  refine ⟨hfire, by norm_num [envBzero], ?_⟩
  obtain ⟨rest, hrest⟩ := (execB_req_refresh_behaviour cfgEx envBzero 3 mB5 tokEx
    authHeadersEx 5 rfl rfl rfl "GET" "positions" none none none).1 hfire
  exact ⟨rest, by simpa [mB5, tokEx] using hrest⟩

/-- C1 (amended): for Variant B, from every logged-in state, the refresh
decision made at the start of a request returns true if and only if the
current monotonic time plus the projected request duration strictly exceeds
the stored expiry timestamp (not "current time at or past the expiry"); when
it returns true, a refresh-token request is dispatched before the request's
own dispatch, and when it returns false the request's own dispatch is the
only transport call. -/
theorem C1_amended_refresh_decision (cfg : Config) (env : EnvB) (k : Nat) (m : MachB)
    (tok : OAuthToken) (auth : Headers) (expiry : ℚ)
    (h1 : m.st.oauth_token = some tok)
    (h2 : m.st.authorization_headers = some auth)
    (h3 : m.st.token_expiry_timestamp = some expiry)
    (method endpoint : String) (params data : Option Payload) (headers : Option Headers) :
    (needsRefreshB cfg.timeout (env.clock m.nClock) expiry = true ↔
      env.clock m.nClock + projectedDuration cfg.timeout > expiry) ∧
    (needsRefreshB cfg.timeout (env.clock m.nClock) expiry = true →
      ∃ rest, (execB cfg env (k + 2) (.req method endpoint params data headers) m).2.trace
        = m.trace ++ refreshEventB cfg m tok.refresh_token :: rest) ∧
    (needsRefreshB cfg.timeout (env.clock m.nClock) expiry = false →
      (execB cfg env (k + 2) (.req method endpoint params data headers) m).2.trace
        = m.trace ++ [genericEventB m method endpoint (mergeHeaders cfg auth headers) data]) :=
  ⟨needsRefreshB_iff cfg.timeout (env.clock m.nClock) expiry,
   (execB_req_refresh_behaviour cfg env k m tok auth expiry h1 h2 h3
     method endpoint params data headers).1,
   (execB_req_refresh_behaviour cfg env k m tok auth expiry h1 h2 h3
     method endpoint params data headers).2⟩

/-- Witness for the amended C1 at a concrete logged-in state. -/
theorem C1_amended_witness :
    (needsRefreshB cfgEx.timeout (envBzero.clock mB5.nClock) 5 = true ↔
      envBzero.clock mB5.nClock + projectedDuration cfgEx.timeout > 5) ∧
    (needsRefreshB cfgEx.timeout (envBzero.clock mB5.nClock) 5 = true →
      ∃ rest, (execB cfgEx envBzero 6 (.req "GET" "positions" none none none) mB5).2.trace
        = mB5.trace ++ refreshEventB cfgEx mB5 tokEx.refresh_token :: rest) ∧
    (needsRefreshB cfgEx.timeout (envBzero.clock mB5.nClock) 5 = false →
      (execB cfgEx envBzero 6 (.req "GET" "positions" none none none) mB5).2.trace
        = mB5.trace ++ [genericEventB mB5 "GET" "positions"
            (mergeHeaders cfgEx authHeadersEx none) none]) :=
  C1_amended_refresh_decision cfgEx envBzero 4 mB5 tokEx authHeadersEx 5 rfl rfl rfl
    "GET" "positions" none none none

@[simp] theorem afterLoginOkA_headers (cfg : Config) (m : MachA) (cst xst : String) :
    (afterLoginOkA cfg m cst xst).st.authorization_headers
      = some [("CST", cst), ("X-SECURITY-TOKEN", xst)] := rfl

/-- Full characterization of a Variant A generic request from a logged-in
state: exactly one transport call goes out with the three-tier merged
headers; on success the body is returned and the tracked tokens are rotated
from the response headers; on failure the status and body are logged and the
bare request-failure error is raised, everything else unchanged. -/
theorem reqA_loggedIn (cfg : Config) (env : EnvA) (k : Nat) (m : MachA) (auth : Headers)
    (hauth : m.st.authorization_headers = some auth)
    (method endpoint : String) (params data : Option Payload) (headers : Option Headers) :
    execA cfg env (k + 1) (.req method endpoint params data headers) m =
      (if respOk (env.genericResp m.nGeneric) = true then
        (.ok (bodyOrEmpty (env.genericResp m.nGeneric)),
         { m with nGeneric := m.nGeneric + 1,
                  trace := m.trace ++ [genericEventA m method endpoint
                    (mergeHeaders cfg auth headers) data],
                  st := { m.st with
                    authorization_headers := some (rotateHeaders auth
                      (env.genericResp m.nGeneric).headers) } })
      else
        (.error .requestFailed,
         { m with nGeneric := m.nGeneric + 1,
                  trace := m.trace ++ [genericEventA m method endpoint
                    (mergeHeaders cfg auth headers) data],
                  logs := m.logs ++ [.requestFailed (env.genericResp m.nGeneric).status
                    (env.genericResp m.nGeneric).text] })) := by
  rw [execA]
  simp only [hauth, Option.isNone_some, Bool.false_eq_true, if_false]
  unfold reqCoreA
  rw [hauth]
  simp only [dispatchGenericA]

@[simp] theorem afterLoginOkB_oauth (cfg : Config) (env : EnvB) (m : MachB)
    (aid : String) (tok : OAuthToken) :
    (afterLoginOkB cfg env m aid tok).st.oauth_token = some tok := rfl

@[simp] theorem afterLoginOkB_headers (cfg : Config) (env : EnvB) (m : MachB)
    (aid : String) (tok : OAuthToken) :
    (afterLoginOkB cfg env m aid tok).st.authorization_headers
      = some [("IG-ACCOUNT-ID", aid), ("Authorization", "Bearer " ++ tok.access_token)] := rfl

@[simp] theorem afterLoginOkB_expiry (cfg : Config) (env : EnvB) (m : MachB)
    (aid : String) (tok : OAuthToken) :
    (afterLoginOkB cfg env m aid tok).st.token_expiry_timestamp
      = some (env.clock m.nClock + tok.expires_in) := rfl

@[simp] theorem afterLoginOkB_nClock (cfg : Config) (env : EnvB) (m : MachB)
    (aid : String) (tok : OAuthToken) :
    (afterLoginOkB cfg env m aid tok).nClock = m.nClock + 1 := rfl

@[simp] theorem afterLoginOkB_nGeneric (cfg : Config) (env : EnvB) (m : MachB)
    (aid : String) (tok : OAuthToken) :
    (afterLoginOkB cfg env m aid tok).nGeneric = m.nGeneric := rfl

/-- Full characterization of a Variant B generic request from a logged-in
state whose refresh decision does not fire: exactly one transport call goes
out with the three-tier merged headers; on success the body is returned with
the credential state untouched; on failure the status and body are logged and
the bare request-failure error is raised. -/
theorem reqB_loggedIn_noRefresh (cfg : Config) (env : EnvB) (k : Nat) (m : MachB)
    (tok : OAuthToken) (auth : Headers) (expiry : ℚ)
    (h1 : m.st.oauth_token = some tok)
    (h2 : m.st.authorization_headers = some auth)
    (h3 : m.st.token_expiry_timestamp = some expiry)
    (hnofire : needsRefreshB cfg.timeout (env.clock m.nClock) expiry = false)
    (method endpoint : String) (params data : Option Payload) (headers : Option Headers) :
    execB cfg env (k + 1) (.req method endpoint params data headers) m =
      (if respOk (env.genericResp m.nGeneric) = true then
        (.ok (bodyOrEmpty (env.genericResp m.nGeneric)),
         { m with nClock := m.nClock + 1, nGeneric := m.nGeneric + 1,
                  trace := m.trace ++ [genericEventB m method endpoint
                    (mergeHeaders cfg auth headers) data] })
      else
        (.error .requestFailed,
         { m with nClock := m.nClock + 1, nGeneric := m.nGeneric + 1,
                  trace := m.trace ++ [genericEventB m method endpoint
                    (mergeHeaders cfg auth headers) data],
                  logs := m.logs ++ [.requestFailed (env.genericResp m.nGeneric).status
                    (env.genericResp m.nGeneric).text] })) := by
  rw [execB]
  simp only [h1, h2, Option.isNone_some, Bool.or_self, Bool.false_eq_true,
    if_false, tickB]
  rw [h3]
  simp only [hnofire, Bool.false_eq_true, if_false]
  unfold reqCoreB
  dsimp only
  rw [h2]
  simp only [dispatchGenericB]
  split <;> rfl

def authA1 : Headers := [("CST", "cst1"), ("X-SECURITY-TOKEN", "xst1")]

/-- A Variant A machine as it stands after a successful login for account
"ABC123". -/
def mA1 : MachA :=
  { st := { account_id := "ABC123", authorization_headers := some authA1 },
    nLogin := 1, nGeneric := 0, trace := [], logs := [] }

def respFail401 : Response :=
  { status := 401, text := "unauthorized", headers := [], hasContent := true, body := {} }

def respFail500 : Response :=
  { status := 500, text := "server error", headers := [], hasContent := true, body := {} }

def envA401 : EnvA :=
  { loginResp := fun _ => .ok "cst1" "xst1" "ABC123", genericResp := fun _ => respFail401 }

def envA500 : EnvA :=
  { loginResp := fun _ => .ok "cst1" "xst1" "ABC123", genericResp := fun _ => respFail500 }

/-- C3 fails on the code in one respect: the exception raised on a non-success
status carries no payload at all — two failing calls with different statuses
and bodies (401 "unauthorized" vs 500 "server error") raise equal error
values, while the statuses and bodies appear only in the log. -/
theorem C3_counterexample :
    (execA cfgEx envA401 1 (.req "GET" "positions" none none none) mA1).1
      = .error .requestFailed ∧
    (execA cfgEx envA500 1 (.req "GET" "positions" none none none) mA1).1
      = .error .requestFailed ∧
    (execA cfgEx envA401 1 (.req "GET" "positions" none none none) mA1).2.logs
      = [.requestFailed 401 "unauthorized"] ∧
    (execA cfgEx envA500 1 (.req "GET" "positions" none none none) mA1).2.logs
      = [.requestFailed 500 "server error"] ∧
    (execA cfgEx envA401 1 (.req "GET" "positions" none none none) mA1).1
      = (execA cfgEx envA500 1 (.req "GET" "positions" none none none) mA1).1 := by
  refine ⟨by decide, by decide, by decide, by decide, by decide⟩

/-- C3 (amended): on either variant, a non-success HTTP status on the generic
request path causes the status code and response body to be logged and a bare
request-failure exception to be raised (the exception itself carries no
status or body — those appear only in the log); the call dispatches exactly
one transport request, no login or refresh is attempted for it, and the
session state is left unchanged. -/
theorem C3_amended_failure_logged_and_raised :
    (∀ (cfg : Config) (env : EnvA) (k : Nat) (m : MachA) (auth : Headers)
       (method endpoint : String) (params data : Option Payload) (headers : Option Headers),
      m.st.authorization_headers = some auth →
      respOk (env.genericResp m.nGeneric) = false →
      (execA cfg env (k + 1) (.req method endpoint params data headers) m).1
        = .error .requestFailed ∧
      (execA cfg env (k + 1) (.req method endpoint params data headers) m).2.logs
        = m.logs ++ [.requestFailed (env.genericResp m.nGeneric).status
            (env.genericResp m.nGeneric).text] ∧
      (execA cfg env (k + 1) (.req method endpoint params data headers) m).2.st = m.st ∧
      (execA cfg env (k + 1) (.req method endpoint params data headers) m).2.nLogin
        = m.nLogin ∧
      (execA cfg env (k + 1) (.req method endpoint params data headers) m).2.trace
        = m.trace ++ [genericEventA m method endpoint (mergeHeaders cfg auth headers) data]) ∧
    (∀ (cfg : Config) (env : EnvB) (k : Nat) (m : MachB) (tok : OAuthToken)
       (auth : Headers) (expiry : ℚ)
       (method endpoint : String) (params data : Option Payload) (headers : Option Headers),
      m.st.oauth_token = some tok →
      m.st.authorization_headers = some auth →
      m.st.token_expiry_timestamp = some expiry →
      needsRefreshB cfg.timeout (env.clock m.nClock) expiry = false →
      respOk (env.genericResp m.nGeneric) = false →
      (execB cfg env (k + 1) (.req method endpoint params data headers) m).1
        = .error .requestFailed ∧
      (execB cfg env (k + 1) (.req method endpoint params data headers) m).2.logs
        = m.logs ++ [.requestFailed (env.genericResp m.nGeneric).status
            (env.genericResp m.nGeneric).text] ∧
      (execB cfg env (k + 1) (.req method endpoint params data headers) m).2.st = m.st ∧
      (execB cfg env (k + 1) (.req method endpoint params data headers) m).2.nLogin
        = m.nLogin ∧
      (execB cfg env (k + 1) (.req method endpoint params data headers) m).2.nRefresh
        = m.nRefresh ∧
      (execB cfg env (k + 1) (.req method endpoint params data headers) m).2.trace
        = m.trace ++ [genericEventB m method endpoint (mergeHeaders cfg auth headers) data]) := by
  constructor
  · intro cfg env k m auth method endpoint params data headers hauth hnotok
    rw [reqA_loggedIn cfg env k m auth hauth method endpoint params data headers]
    simp [hnotok]
  · intro cfg env k m tok auth expiry method endpoint params data headers h1 h2 h3
      hnofire hnotok
    rw [reqB_loggedIn_noRefresh cfg env k m tok auth expiry h1 h2 h3 hnofire
      method endpoint params data headers]
    simp [hnotok]

/-- Witness for the amended C3 at a concrete failing call. -/
theorem C3_amended_witness :
    (execA cfgEx envA401 1 (.req "GET" "positions" none none none) mA1).1
      = .error .requestFailed ∧
    (execA cfgEx envA401 1 (.req "GET" "positions" none none none) mA1).2.logs
      = mA1.logs ++ [.requestFailed (envA401.genericResp mA1.nGeneric).status
          (envA401.genericResp mA1.nGeneric).text] ∧
    (execA cfgEx envA401 1 (.req "GET" "positions" none none none) mA1).2.st = mA1.st ∧
    (execA cfgEx envA401 1 (.req "GET" "positions" none none none) mA1).2.nLogin
      = mA1.nLogin ∧
    (execA cfgEx envA401 1 (.req "GET" "positions" none none none) mA1).2.trace
      = mA1.trace ++ [genericEventA mA1 "GET" "positions"
          (mergeHeaders cfgEx authA1 none) none] :=
  C3_amended_failure_logged_and_raised.1 cfgEx envA401 0 mA1 authA1
    "GET" "positions" none none none rfl (by decide)

/-- C8: for Variant A, after every successful call through the generic
request path, each of the two tracked authorization headers present in the
response headers is overwritten with the response's value, each tracked
header absent from the response keeps its stored value, and no other
credential field (in particular the tracked account id) is modified. -/
theorem C8_variant_a_token_rotation (cfg : Config) (env : EnvA) (k : Nat) (m : MachA)
    (c x : String) (method endpoint : String) (params data : Option Payload)
    (headers : Option Headers)
    (hauth : m.st.authorization_headers = some [("CST", c), ("X-SECURITY-TOKEN", x)])
    (hok : respOk (env.genericResp m.nGeneric) = true) :
    (execA cfg env (k + 1) (.req method endpoint params data headers) m).1
      = .ok (bodyOrEmpty (env.genericResp m.nGeneric)) ∧
    (execA cfg env (k + 1) (.req method endpoint params data headers) m).2.st
      = { account_id := m.st.account_id,
          authorization_headers := some
            [("CST", (hLookup (env.genericResp m.nGeneric).headers "CST").getD c),
             ("X-SECURITY-TOKEN",
               (hLookup (env.genericResp m.nGeneric).headers "X-SECURITY-TOKEN").getD x)] } := by
  rw [reqA_loggedIn cfg env k m _ hauth method endpoint params data headers]
  simp only [hok, if_true]
  refine ⟨trivial, ?_⟩
  simp only [rotateHeaders, List.map]
  rcases hc : hLookup (env.genericResp m.nGeneric).headers "CST" with _ | vc <;>
    rcases hx : hLookup (env.genericResp m.nGeneric).headers "X-SECURITY-TOKEN" with _ | vx <;>
    simp [hc, hx]

def respRotate : Response :=
  { status := 200, text := "", headers := [("CST", "cst2")], hasContent := false,
    body := {} }

def envArot : EnvA :=
  { loginResp := fun _ => .ok "cst1" "xst1" "ABC123", genericResp := fun _ => respRotate }

/-- Witness for C8: the response rotates CST and omits X-SECURITY-TOKEN,
which keeps its stored value. -/
theorem C8_variant_a_token_rotation_witness :
    (execA cfgEx envArot 1 (.req "GET" "positions" none none none) mA1).1
      = .ok (bodyOrEmpty (envArot.genericResp mA1.nGeneric)) ∧
    (execA cfgEx envArot 1 (.req "GET" "positions" none none none) mA1).2.st
      = { account_id := mA1.st.account_id,
          authorization_headers := some
            [("CST", (hLookup (envArot.genericResp mA1.nGeneric).headers "CST").getD "cst1"),
             ("X-SECURITY-TOKEN",
               (hLookup (envArot.genericResp mA1.nGeneric).headers
                 "X-SECURITY-TOKEN").getD "xst1")] } :=
  C8_variant_a_token_rotation cfgEx envArot 0 mA1 "cst1" "xst1" "GET" "positions"
    none none none rfl (by decide)

/-- C4 fails on the code in one respect: a failed account switch from a
never-logged-in client still mutates the credential state, because the PUT's
request path performs the login first.  Here the login succeeds, the PUT
fails with 401, the operation raises, the account id is unchanged — but the
authorization headers went from absent to populated. -/
theorem C4_counterexample :
    (execA cfgEx envA401 6 (.switchAcct "NEW" false) (initA "ABC123")).1
      = .error .requestFailed ∧
    (initA "ABC123").st.authorization_headers = none ∧
    (execA cfgEx envA401 6 (.switchAcct "NEW" false) (initA "ABC123")).2.st.authorization_headers
      = some [("CST", "cst1"), ("X-SECURITY-TOKEN", "xst1")] ∧
    (execA cfgEx envA401 6 (.switchAcct "NEW" false) (initA "ABC123")).2.st.account_id
      = "ABC123" := by
  refine ⟨by decide, by decide, by decide, by decide⟩

/-- C4 (amended): on either variant the locally tracked account identifier
(and, for Variant B, the IG-ACCOUNT-ID header set with it) is updated only
after the PUT /session succeeds — on failure the operation raises and the
account identifier is unchanged.  From a logged-in state in which no login or
refresh runs on the way to the PUT, a failed switch leaves the whole session
state unchanged; credential state may still change when the PUT's request
path performs a login or token refresh first. -/
theorem C4_amended_switch_confirmed_first :
    (∀ (cfg : Config) (env : EnvA) (fuel : Nat) (aid : String) (da : Bool) (m : MachA),
      (execA cfg env fuel (.switchAcct aid da) m).2.st.account_id =
        match (execA cfg env fuel (.switchAcct aid da) m).1 with
        | .ok _ => aid
        | .error _ => m.st.account_id) ∧
    (∀ (cfg : Config) (env : EnvB) (fuel : Nat) (aid : String) (da : Bool) (m : MachB),
      InvB m.st →
      (execB cfg env fuel (.switchAcct aid da) m).2.st.account_id =
        match (execB cfg env fuel (.switchAcct aid da) m).1 with
        | .ok _ => aid
        | .error _ => m.st.account_id) ∧
    (∀ (cfg : Config) (env : EnvA) (k : Nat) (aid : String) (da : Bool) (m : MachA)
       (auth : Headers),
      m.st.authorization_headers = some auth →
      respOk (env.genericResp m.nGeneric) = false →
      (execA cfg env (k + 2) (.switchAcct aid da) m).1 = .error .requestFailed ∧
      (execA cfg env (k + 2) (.switchAcct aid da) m).2.st = m.st) ∧
    (∀ (cfg : Config) (env : EnvB) (k : Nat) (aid : String) (da : Bool) (m : MachB)
       (tok : OAuthToken) (auth : Headers) (expiry : ℚ),
      m.st.oauth_token = some tok →
      m.st.authorization_headers = some auth →
      m.st.token_expiry_timestamp = some expiry →
      needsRefreshB cfg.timeout (env.clock m.nClock) expiry = false →
      respOk (env.genericResp m.nGeneric) = false →
      (execB cfg env (k + 2) (.switchAcct aid da) m).1 = .error .requestFailed ∧
      (execB cfg env (k + 2) (.switchAcct aid da) m).2.st = m.st) := by
  refine ⟨?_, ?_, ?_, ?_⟩
  · intro cfg env fuel aid da m
    exact (execA_account cfg env fuel).2.2 aid da m
  · intro cfg env fuel aid da m hInv
    exact (execB_account cfg env fuel).2.2.2 aid da m hInv
  · intro cfg env k aid da m auth hauth hnotok
    rw [execA]
    rw [reqA_loggedIn cfg env k m auth hauth "PUT" "session" none
      (some (.switchPayload aid da)) (some [("Version", "1")])]
    simp [hnotok]
  · intro cfg env k aid da m tok auth expiry h1 h2 h3 hnofire hnotok
    rw [execB]
    rw [reqB_loggedIn_noRefresh cfg env k m tok auth expiry h1 h2 h3 hnofire
      "PUT" "session" none (some (.switchPayload aid da)) (some [("Version", "1")])]
    simp [hnotok]

/-- Witness for the amended C4 at a concrete failed switch from a logged-in
Variant A state. -/
theorem C4_amended_witness :
    (execA cfgEx envA401 2 (.switchAcct "NEW" false) mA1).1 = .error .requestFailed ∧
    (execA cfgEx envA401 2 (.switchAcct "NEW" false) mA1).2.st = mA1.st :=
  C4_amended_switch_confirmed_first.2.2.1 cfgEx envA401 0 "NEW" false mA1 authA1
    rfl (by decide)

/-- C5: on either variant, a session-details operation whose inner GET
returns successfully raises the consistency error exactly when the account id
in the server's response differs from the locally tracked account id; when
they are equal the parsed response is returned unchanged. -/
theorem C5_session_details_consistency :
    (∀ (cfg : Config) (env : EnvA) (fuel : Nat) (m : MachA) (body : RespBody) (aid : String),
      (execA cfg env fuel (.req "GET" "session" none none (some [("Version", "1")])) m).1
        = .ok body →
      body.accountId = some aid →
      (((runOpA cfg env fuel .sessionDetails m).1
          = .error (.consistency "incorrect accountId in session details"))
        ↔ m.st.account_id ≠ aid) ∧
      (m.st.account_id = aid → (runOpA cfg env fuel .sessionDetails m).1 = .ok body)) ∧
    (∀ (cfg : Config) (env : EnvB) (fuel : Nat) (m : MachB) (body : RespBody) (aid : String),
      InvB m.st →
      (execB cfg env fuel (.req "GET" "session" none none (some [("Version", "1")])) m).1
        = .ok body →
      body.accountId = some aid →
      (((runOpB cfg env fuel .sessionDetails m).1
          = .error (.consistency "incorrect accountId in session details"))
        ↔ m.st.account_id ≠ aid) ∧
      (m.st.account_id = aid → (runOpB cfg env fuel .sessionDetails m).1 = .ok body)) := by
  constructor
  · intro cfg env fuel m body aid hok hacc
    have haccount := (execA_account cfg env fuel).1 "GET" "session" none none
      (some [("Version", "1")]) m
    simp only [runOpA]
    unfold sessionDetailsCheck
    rw [hok]
    dsimp only
    rw [hacc]
    dsimp only
    rw [haccount]
    constructor
    · by_cases hne : m.st.account_id ≠ aid
      · simp [hne]
      · simp [hne]
    · intro heqq
      simp [heqq]
  · intro cfg env fuel m body aid hInv hok hacc
    have haccount := (execB_account cfg env fuel).1 "GET" "session" none none
      (some [("Version", "1")]) m hInv
    simp only [runOpB]
    unfold sessionDetailsCheck
    rw [hok]
    dsimp only
    rw [hacc]
    dsimp only
    rw [haccount]
    constructor
    · by_cases hne : m.st.account_id ≠ aid
      · simp [hne]
      · simp [hne]
    · intro heqq
      simp [heqq]

def respSessionXYZ : Response :=
  { status := 200, text := "", headers := [], hasContent := true,
    body := { accountId := some "XYZ999" } }

def envAxyz : EnvA :=
  { loginResp := fun _ => .ok "cst1" "xst1" "ABC123",
    genericResp := fun _ => respSessionXYZ }

/-- Witness for C5: the server reports account "XYZ999" while the client
tracks "ABC123", so the consistency error fires. -/
theorem C5_session_details_consistency_witness :
    (((runOpA cfgEx envAxyz 2 .sessionDetails mA1).1
        = .error (.consistency "incorrect accountId in session details"))
      ↔ mA1.st.account_id ≠ "XYZ999") ∧
    (mA1.st.account_id = "XYZ999" →
      (runOpA cfgEx envAxyz 2 .sessionDetails mA1).1 = .ok respSessionXYZ.body) :=
  C5_session_details_consistency.1 cfgEx envAxyz 2 mA1 respSessionXYZ.body "XYZ999"
    (by decide) rfl

@[simp] theorem afterRefreshFailB_nLogin (cfg : Config) (m : MachB) (rt : String)
    (s : Nat) (t : String) : (afterRefreshFailB cfg m rt s t).nLogin = m.nLogin := rfl

@[simp] theorem afterRefreshFailB_nGeneric (cfg : Config) (m : MachB) (rt : String)
    (s : Nat) (t : String) : (afterRefreshFailB cfg m rt s t).nGeneric = m.nGeneric := rfl

/-- A login operation always dispatches the login request first, whatever
happens afterwards. -/
theorem execB_logIn_trace (cfg : Config) (env : EnvB) (fuel : Nat) (m : MachB) :
    ∃ d, (execB cfg env (fuel + 1) .logIn m).2.trace
      = m.trace ++ loginEventB cfg m :: d := by
  rw [execB]
  cases hr : env.loginResp m.nLogin with
  | err status text => exact ⟨[], by simp⟩
  | ok accountId tok =>
    dsimp only
    split
    · obtain ⟨d1, hd1⟩ := execB_trace_mono cfg env fuel
        (.switchAcct (afterLoginOkB cfg env m accountId tok).st.account_id false)
        (afterLoginOkB cfg env m accountId tok)
      rw [afterLoginOkB_trace] at hd1
      split
      next e m5 heq => rw [heq] at hd1; exact ⟨d1, by simpa using hd1⟩
      next b5 m5 heq => rw [heq] at hd1; exact ⟨d1, by simpa using hd1⟩
    · exact ⟨[], by simp⟩

/-- C7: for Variant B, when the refresh decision fires and the refresh-token
request fails, the refresh failure is not surfaced: a full login is attempted
immediately after (its dispatch follows the refresh dispatch in the trace);
if that login succeeds for the tracked account, the call proceeds and
succeeds when its own dispatch succeeds, and only a failure of the fallback
login itself is raised, as the login-failure error. -/
theorem C7_refresh_failure_falls_back_to_login (cfg : Config) (env : EnvB) (k : Nat)
    (m : MachB) (tok : OAuthToken) (auth : Headers) (expiry : ℚ)
    (s : Nat) (t : String)
    (h1 : m.st.oauth_token = some tok)
    (h2 : m.st.authorization_headers = some auth)
    (h3 : m.st.token_expiry_timestamp = some expiry)
    (hfire : needsRefreshB cfg.timeout (env.clock m.nClock) expiry = true)
    (href : env.refreshResp m.nRefresh = .err s t)
    (method endpoint : String) (params data : Option Payload) (headers : Option Headers) :
    (∃ rest, (execB cfg env (k + 3) (.req method endpoint params data headers) m).2.trace
      = m.trace ++ refreshEventB cfg m tok.refresh_token :: loginEventB cfg m :: rest) ∧
    (∀ (aid2 : String) (tok2 : OAuthToken),
      env.loginResp m.nLogin = .ok aid2 tok2 →
      aid2 = m.st.account_id →
      respOk (env.genericResp m.nGeneric) = true →
      (execB cfg env (k + 3) (.req method endpoint params data headers) m).1
        = .ok (bodyOrEmpty (env.genericResp m.nGeneric))) ∧
    (∀ (s2 : Nat) (t2 : String),
      env.loginResp m.nLogin = .err s2 t2 →
      (execB cfg env (k + 3) (.req method endpoint params data headers) m).1
        = .error .logInFailed) := by
  rw [execB]
  simp only [h1, h2, Option.isNone_some, Bool.or_self, Bool.false_eq_true,
    if_false, tickB]
  rw [h3]
  simp only [hfire, if_true]
  rw [execB]
  simp only [h1]
  rw [href]
  dsimp only
  refine ⟨?_, ?_, ?_⟩
  · obtain ⟨d1, hd1⟩ := execB_logIn_trace cfg env k
      (afterRefreshFailB cfg { m with nClock := m.nClock + 1 } tok.refresh_token s t)
    rw [afterRefreshFailB_trace] at hd1
    have hd1' : ∀ m5 : MachB,
        (execB cfg env (k + 1) .logIn
          (afterRefreshFailB cfg { m with nClock := m.nClock + 1 }
            tok.refresh_token s t)).2 = m5 →
        m5.trace = m.trace ++ refreshEventB cfg m tok.refresh_token
          :: loginEventB cfg m :: d1 := by
      intro m5 hm5
      rw [hm5] at hd1
      simpa using hd1
    split
    next e m5 heq => exact ⟨d1, hd1' m5 (by rw [heq])⟩
    next b5 m5 heq =>
      obtain ⟨d2, hd2⟩ := reqCoreB_trace cfg env method endpoint data headers m5
      rw [hd2, hd1' m5 (by rw [heq])]
      exact ⟨d1 ++ d2, by simp⟩
  · intro aid2 tok2 hlog hmatch hgok
    rw [execB]
    simp only [afterRefreshFailB_nLogin]
    rw [hlog]
    dsimp only
    rw [if_neg (by simp [hmatch])]
    unfold reqCoreB
    dsimp only
    rw [afterLoginOkB_headers]
    simp only [dispatchGenericB, afterLoginOkB_nGeneric, afterRefreshFailB_nGeneric]
    simp [hgok]
  · intro s2 t2 hlog
    rw [execB]
    simp only [afterRefreshFailB_nLogin]
    rw [hlog]

def envC7 : EnvB :=
  { loginResp := fun _ => .ok "ABC123" tokEx,
    refreshResp := fun _ => .err 400 "invalid_grant",
    genericResp := fun _ => okRespEx, clock := fun _ => 0 }

/-- Witness for C7: the refresh call fails with 400, the fallback login
succeeds and the call completes successfully. -/
theorem C7_refresh_failure_falls_back_witness :
    (∃ rest, (execB cfgEx envC7 4 (.req "GET" "positions" none none none) mB5).2.trace
      = mB5.trace ++ refreshEventB cfgEx mB5 tokEx.refresh_token
        :: loginEventB cfgEx mB5 :: rest) ∧
    (∀ (aid2 : String) (tok2 : OAuthToken),
      envC7.loginResp mB5.nLogin = .ok aid2 tok2 →
      aid2 = mB5.st.account_id →
      respOk (envC7.genericResp mB5.nGeneric) = true →
      (execB cfgEx envC7 4 (.req "GET" "positions" none none none) mB5).1
        = .ok (bodyOrEmpty (envC7.genericResp mB5.nGeneric))) ∧
    (∀ (s2 : Nat) (t2 : String),
      envC7.loginResp mB5.nLogin = .err s2 t2 →
      (execB cfgEx envC7 4 (.req "GET" "positions" none none none) mB5).1
        = .error .logInFailed) :=
  C7_refresh_failure_falls_back_to_login cfgEx envC7 1 mB5 tokEx authHeadersEx 5
    400 "invalid_grant" rfl rfl rfl
    (by rw [needsRefreshB_iff]; norm_num [cfgEx, projectedDuration, envC7])
    rfl "GET" "positions" none none none

@[simp] theorem afterLoginOkA_nGeneric (cfg : Config) (m : MachA) (cst xst : String) :
    (afterLoginOkA cfg m cst xst).nGeneric = m.nGeneric := rfl

/-- A Variant A request that starts logged-out only adds events after those
of the login it performs. -/
theorem execA_req_trace_after_logIn (cfg : Config) (env : EnvA) (fuel : Nat) (m : MachA)
    (method endpoint : String) (params data : Option Payload) (headers : Option Headers)
    (hguard : m.st.authorization_headers.isNone = true) :
    ∃ d, (execA cfg env (fuel + 1) (.req method endpoint params data headers) m).2.trace
      = (execA cfg env fuel .logIn m).2.trace ++ d := by
  rw [execA]
  rw [if_pos hguard]
  split
  next e m1 heq => rw [heq]; exact ⟨[], by simp⟩
  next b m1 heq =>
    rw [heq]
    obtain ⟨d, hd⟩ := reqCoreA_trace cfg env method endpoint data headers m1
    exact ⟨d, hd⟩

/-- A Variant A login whose server-confirmed account differs from the
configured one dispatches the login request and then, immediately after, the
implicit account-switch PUT carrying the configured account id. -/
theorem execA_logIn_mismatch_trace (cfg : Config) (env : EnvA) (k : Nat) (m : MachA)
    (cst xst cur : String)
    (hlog : env.loginResp m.nLogin = .ok cst xst cur)
    (hne : m.st.account_id ≠ cur) :
    ∃ d, (execA cfg env (k + 3) .logIn m).2.trace
      = m.trace ++ loginEventA cfg m
        :: genericEventA (afterLoginOkA cfg m cst xst) "PUT" "session"
          (mergeHeaders cfg [("CST", cst), ("X-SECURITY-TOKEN", xst)]
            (some [("Version", "1")]))
          (some (.switchPayload m.st.account_id false)) :: d := by
  rw [execA]
  rw [hlog]
  dsimp only
  simp only [afterLoginOkA_account]
  rw [if_pos hne]
  rw [execA]
  rw [reqA_loggedIn cfg env k (afterLoginOkA cfg m cst xst)
    [("CST", cst), ("X-SECURITY-TOKEN", xst)] (afterLoginOkA_headers cfg m cst xst)
    "PUT" "session" none (some (.switchPayload m.st.account_id false))
    (some [("Version", "1")])]
  by_cases hok : respOk (env.genericResp (afterLoginOkA cfg m cst xst).nGeneric) = true
  · rw [if_pos hok]
    exact ⟨[], by simp⟩
  · rw [if_neg hok]
    exact ⟨[], by simp⟩

/-- A fresh Variant A request with a server-confirmed account matching the
configured one performs the login and then the request's own dispatch, with
no switch request in between. -/
theorem execA_req_fresh_match_trace (cfg : Config) (env : EnvA) (k : Nat) (m : MachA)
    (cst xst cur : String)
    (hnone : m.st.authorization_headers = none)
    (hlog : env.loginResp m.nLogin = .ok cst xst cur)
    (heqacc : m.st.account_id = cur)
    (method endpoint : String) (params data : Option Payload) (headers : Option Headers) :
    (execA cfg env (k + 2) (.req method endpoint params data headers) m).2.trace
      = m.trace ++ [loginEventA cfg m,
          genericEventA (afterLoginOkA cfg m cst xst) method endpoint
            (mergeHeaders cfg [("CST", cst), ("X-SECURITY-TOKEN", xst)] headers) data] := by
  rw [execA]
  rw [if_pos (by simp [hnone])]
  rw [execA]
  rw [hlog]
  dsimp only
  simp only [afterLoginOkA_account]
  rw [if_neg (by simp [heqacc])]
  dsimp only
  unfold reqCoreA
  rw [afterLoginOkA_headers]
  simp only [dispatchGenericA]
  split <;> simp

/-- A Variant B request that starts logged-out only adds events after those
of the login it performs, and adds none at all when that login raises. -/
theorem execB_req_trace_after_logIn (cfg : Config) (env : EnvB) (fuel : Nat) (m : MachB)
    (method endpoint : String) (params data : Option Payload) (headers : Option Headers)
    (hguard : (m.st.oauth_token.isNone || m.st.authorization_headers.isNone) = true) :
    ∃ d, (execB cfg env (fuel + 1) (.req method endpoint params data headers) m).2.trace
      = (execB cfg env fuel .logIn m).2.trace ++ d ∧
      (∀ e, (execB cfg env fuel .logIn m).1 = .error e → d = []) := by
  rw [execB]
  rw [if_pos hguard]
  split
  next e m1 heq => rw [heq]; exact ⟨[], by simp, fun _ _ => rfl⟩
  next b m1 heq =>
    rw [heq]
    simp only [tickB]
    split
    next => exact ⟨[], by simp, by intro e he; simp at he⟩
    next expiry hexp =>
      by_cases hnr : needsRefreshB cfg.timeout (env.clock m1.nClock) expiry = true
      · rw [if_pos hnr]
        obtain ⟨d2, hd2⟩ := execB_trace_mono cfg env fuel .refreshTok
          { m1 with nClock := m1.nClock + 1 }
        simp only at hd2
        split
        next e m3 heq2 =>
          rw [heq2] at hd2
          exact ⟨d2, by simpa using hd2, by intro e he; simp at he⟩
        next b1 m3 heq2 =>
          rw [heq2] at hd2
          obtain ⟨d3, hd3⟩ := reqCoreB_trace cfg env method endpoint data headers m3
          refine ⟨d2 ++ d3, ?_, by intro e he; simp at he⟩
          rw [hd3]
          simp only at hd2
          rw [hd2]
          simp
      · rw [if_neg hnr]
        obtain ⟨d3, hd3⟩ := reqCoreB_trace cfg env method endpoint data headers
          { m1 with nClock := m1.nClock + 1 }
        exact ⟨d3, by simpa using hd3, by intro e he; simp at he⟩


/-- A successful pass through the Variant B request core has dispatched the
requested call: its trace ends with the corresponding generic event. -/
theorem reqCoreB_ok_dispatch (cfg : Config) (env : EnvB) (method endpoint : String)
    (data : Option Payload) (headers : Option Headers) (m3 : MachB) (b : RespBody) :
    (reqCoreB cfg env method endpoint data headers m3).1 = .ok b →
    ∃ t ev, (reqCoreB cfg env method endpoint data headers m3).2.trace = t ++ [ev] ∧
      ev.kind = .generic ∧ ev.method = method ∧ ev.endpoint = endpoint ∧
      ev.data = data := by
  unfold reqCoreB
  split
  next => intro h; simp at h
  next auth hauth =>
    simp only [dispatchGenericB]
    split
    next hr =>
      intro h
      exact ⟨m3.trace,
        genericEventB m3 method endpoint (mergeHeaders cfg auth headers) data,
        rfl, rfl, rfl, rfl, rfl⟩
    next hr => intro h; simp at h

/-- A Variant B generic request that returns successfully has dispatched the
requested call: its trace ends with the corresponding generic event. -/
theorem execB_req_ok_dispatch (cfg : Config) (env : EnvB) :
    ∀ (fuel : Nat) (method endpoint : String) (params data : Option Payload)
      (headers : Option Headers) (m : MachB) (b : RespBody),
    (execB cfg env fuel (.req method endpoint params data headers) m).1 = .ok b →
    ∃ t ev, (execB cfg env fuel (.req method endpoint params data headers) m).2.trace
      = t ++ [ev] ∧ ev.kind = .generic ∧ ev.method = method ∧
      ev.endpoint = endpoint ∧ ev.data = data := by
  intro fuel method endpoint params data headers m b
  cases fuel with
  | zero => intro h; simp [execB] at h
  | succ fuel =>
    rw [execB]
    split
    next e m1 heq => intro h; simp at h
    next b0 m1 heq =>
      simp only [tickB]
      split
      next hexp => intro h; simp at h
      next expiry hexp =>
        by_cases hnr : needsRefreshB cfg.timeout (env.clock m1.nClock) expiry = true
        · rw [if_pos hnr]
          split
          next e m3 heq2 => intro h; simp at h
          next b1 m3 heq2 =>
            exact reqCoreB_ok_dispatch cfg env method endpoint data headers m3 b
        · rw [if_neg hnr]
          exact reqCoreB_ok_dispatch cfg env method endpoint data headers
            { m1 with nClock := m1.nClock + 1 } b

/-- A Variant B account switch that returns successfully has dispatched its
PUT /session request carrying the target account id: its trace ends with that
event. -/
theorem execB_switch_ok_dispatch (cfg : Config) (env : EnvB) :
    ∀ (fuel : Nat) (aid : String) (da : Bool) (m : MachB) (b : RespBody),
    (execB cfg env fuel (.switchAcct aid da) m).1 = .ok b →
    ∃ t ev, (execB cfg env fuel (.switchAcct aid da) m).2.trace = t ++ [ev] ∧
      ev.kind = .generic ∧ ev.method = "PUT" ∧ ev.endpoint = "session" ∧
      ev.data = some (.switchPayload aid da) := by
  intro fuel aid da m b
  cases fuel with
  | zero => intro h; simp [execB] at h
  | succ fuel =>
    rw [execB]
    split
    next e m1 heq => intro h; simp at h
    next body m1 heq =>
      cases hnone : m1.st.authorization_headers with
      | none => simp only [setAccountIdB, hnone]; intro h; simp at h
      | some hd =>
        simp only [setAccountIdB, hnone]
        intro h
        obtain ⟨t, ev, ht, h1, h2, h3, h4⟩ := execB_req_ok_dispatch cfg env fuel
          "PUT" "session" none (some (.switchPayload aid da))
          (some [("Version", "1")]) m body (by rw [heq])
        rw [heq] at ht
        exact ⟨t, ev, by simpa using ht, h1, h2, h3, h4⟩

/-- A Variant B login with a mismatched server-confirmed account that returns
successfully has dispatched the implicit account-switch PUT carrying the
configured account id as its last transport call. -/
theorem execB_logIn_mismatch_ok_dispatch (cfg : Config) (env : EnvB) (fuel : Nat)
    (m : MachB) (aid2 : String) (tok2 : OAuthToken)
    (hlog : env.loginResp m.nLogin = .ok aid2 tok2)
    (hne : m.st.account_id ≠ aid2) :
    ∀ b, (execB cfg env (fuel + 1) .logIn m).1 = .ok b →
    ∃ t ev, (execB cfg env (fuel + 1) .logIn m).2.trace = t ++ [ev] ∧
      ev.kind = .generic ∧ ev.method = "PUT" ∧ ev.endpoint = "session" ∧
      ev.data = some (.switchPayload m.st.account_id false) := by
  intro b
  rw [execB]
  rw [hlog]
  dsimp only
  simp only [afterLoginOkB_account]
  rw [if_pos hne]
  split
  next e m5 heq => intro h; simp at h
  next b5 m5 heq =>
    intro h
    obtain ⟨t, ev, ht, h1, h2, h3, h4⟩ := execB_switch_ok_dispatch cfg env fuel
      m.st.account_id false (afterLoginOkB cfg env m aid2 tok2) b5 (by rw [heq])
    rw [heq] at ht
    exact ⟨t, ev, by simpa using ht, h1, h2, h3, h4⟩

/-- A Variant B login with a matching server-confirmed account dispatches
exactly its own login request — no switch request — and succeeds. -/
theorem execB_logIn_match_exact (cfg : Config) (env : EnvB) (fuel : Nat) (m : MachB)
    (aid2 : String) (tok2 : OAuthToken)
    (hlog : env.loginResp m.nLogin = .ok aid2 tok2)
    (heqacc : m.st.account_id = aid2) :
    (execB cfg env (fuel + 1) .logIn m).2.trace = m.trace ++ [loginEventB cfg m] ∧
    (execB cfg env (fuel + 1) .logIn m).1 = .ok emptyRespBody := by
  rw [execB]
  rw [hlog]
  dsimp only
  simp only [afterLoginOkB_account]
  rw [if_neg (by simp [heqacc])]
  exact ⟨by simp, rfl⟩

/-- C6: on both variants, whenever the login exchange succeeds and the
server-confirmed account identifier differs from the configured one, the
login performs an implicit account-switch PUT to the session endpoint
carrying the configured account identifier before the originally requested
call is dispatched.  For Variant A the PUT follows the login dispatch
immediately; for Variant B, whenever the login step returns (its fresh token
may first need a refresh inside the PUT's own request path), the switch PUT
is the last event of the login step's trace, every event of the request's
continuation — the original call's dispatch included — comes after it, and a
failed login step dispatches nothing further.  When the identifiers match,
the login issues no switch request: Variant A proceeds directly to the
original call's dispatch, and Variant B's login step dispatches exactly its
own login request. -/
theorem C6_implicit_account_switch :
    (∀ (cfg : Config) (env : EnvA) (k : Nat) (m : MachA) (cst xst cur : String)
       (method endpoint : String) (params data : Option Payload) (headers : Option Headers),
      m.st.authorization_headers = none →
      env.loginResp m.nLogin = .ok cst xst cur →
      m.st.account_id ≠ cur →
      ∃ rest, (execA cfg env (k + 4) (.req method endpoint params data headers) m).2.trace
        = m.trace ++ loginEventA cfg m
          :: genericEventA (afterLoginOkA cfg m cst xst) "PUT" "session"
            (mergeHeaders cfg [("CST", cst), ("X-SECURITY-TOKEN", xst)]
              (some [("Version", "1")]))
            (some (.switchPayload m.st.account_id false)) :: rest) ∧
    (∀ (cfg : Config) (env : EnvA) (k : Nat) (m : MachA) (cst xst cur : String)
       (method endpoint : String) (params data : Option Payload) (headers : Option Headers),
      m.st.authorization_headers = none →
      env.loginResp m.nLogin = .ok cst xst cur →
      m.st.account_id = cur →
      (execA cfg env (k + 4) (.req method endpoint params data headers) m).2.trace
        = m.trace ++ [loginEventA cfg m,
            genericEventA (afterLoginOkA cfg m cst xst) method endpoint
              (mergeHeaders cfg [("CST", cst), ("X-SECURITY-TOKEN", xst)] headers) data]) ∧
    (∀ (cfg : Config) (env : EnvB) (k : Nat) (m : MachB) (aid2 : String) (tok2 : OAuthToken)
       (method endpoint : String) (params data : Option Payload) (headers : Option Headers),
      m.st.oauth_token = none →
      env.loginResp m.nLogin = .ok aid2 tok2 →
      m.st.account_id ≠ aid2 →
      ∃ dlog dcont,
        (execB cfg env (k + 4) (.req method endpoint params data headers) m).2.trace
          = (m.trace ++ loginEventB cfg m :: dlog) ++ dcont ∧
        (execB cfg env (k + 3) .logIn m).2.trace = m.trace ++ loginEventB cfg m :: dlog ∧
        (∀ b, (execB cfg env (k + 3) .logIn m).1 = .ok b →
          ∃ t ev, m.trace ++ loginEventB cfg m :: dlog = t ++ [ev] ∧
            ev.kind = .generic ∧ ev.method = "PUT" ∧ ev.endpoint = "session" ∧
            ev.data = some (.switchPayload m.st.account_id false)) ∧
        (∀ e, (execB cfg env (k + 3) .logIn m).1 = .error e → dcont = [])) ∧
    (∀ (cfg : Config) (env : EnvB) (k : Nat) (m : MachB) (aid2 : String) (tok2 : OAuthToken)
       (method endpoint : String) (params data : Option Payload) (headers : Option Headers),
      m.st.oauth_token = none →
      env.loginResp m.nLogin = .ok aid2 tok2 →
      m.st.account_id = aid2 →
      ∃ dcont,
        (execB cfg env (k + 4) (.req method endpoint params data headers) m).2.trace
          = (m.trace ++ [loginEventB cfg m]) ++ dcont ∧
        (execB cfg env (k + 3) .logIn m).2.trace = m.trace ++ [loginEventB cfg m] ∧
        (execB cfg env (k + 3) .logIn m).1 = .ok emptyRespBody) := by
  refine ⟨?_, ?_, ?_, ?_⟩
  · intro cfg env k m cst xst cur method endpoint params data headers hnone hlog hne
    obtain ⟨dd, hdd⟩ := execA_req_trace_after_logIn cfg env (k + 3) m
      method endpoint params data headers (by simp [hnone])
    obtain ⟨d, hd⟩ := execA_logIn_mismatch_trace cfg env k m cst xst cur hlog hne
    rw [hd] at hdd
    exact ⟨d ++ dd, by rw [hdd]; simp⟩
  · intro cfg env k m cst xst cur method endpoint params data headers hnone hlog heqacc
    exact execA_req_fresh_match_trace cfg env (k + 2) m cst xst cur hnone hlog heqacc
      method endpoint params data headers
  · intro cfg env k m aid2 tok2 method endpoint params data headers hnone hlog hne
    obtain ⟨dlog, hdlog⟩ := execB_logIn_trace cfg env (k + 2) m
    obtain ⟨dcont, hdcont, herr⟩ := execB_req_trace_after_logIn cfg env (k + 3) m
      method endpoint params data headers (by simp [hnone])
    refine ⟨dlog, dcont, ?_, hdlog, ?_, herr⟩
    · rw [hdcont, hdlog]
    · intro b hb
      obtain ⟨t, ev, ht, h1, h2, h3, h4⟩ := execB_logIn_mismatch_ok_dispatch cfg env (k + 2)
        m aid2 tok2 hlog hne b hb
      rw [hdlog] at ht
      exact ⟨t, ev, ht, h1, h2, h3, h4⟩
  · intro cfg env k m aid2 tok2 method endpoint params data headers hnone hlog heqacc
    obtain ⟨htr, hres⟩ := execB_logIn_match_exact cfg env (k + 2) m aid2 tok2 hlog heqacc
    obtain ⟨dcont, hdcont, _⟩ := execB_req_trace_after_logIn cfg env (k + 3) m
      method endpoint params data headers (by simp [hnone])
    exact ⟨dcont, by rw [hdcont, htr], htr, hres⟩

def envAmismatch : EnvA :=
  { loginResp := fun _ => .ok "cst1" "xst1" "XYZ999", genericResp := fun _ => okRespEx }

def tokShort : OAuthToken := { access_token := "at1", refresh_token := "rt1", expires_in := 5 }

/-- A Variant B environment whose login confirms the mismatched account
"XYZ999" with a token that expires in 5 seconds — below the 10-second
projected duration, so the switch PUT's own request path refreshes first. -/
def envBmismatch : EnvB :=
  { loginResp := fun _ => .ok "XYZ999" tokShort, refreshResp := fun _ => .ok tokEx,
    genericResp := fun _ => okRespEx, clock := fun _ => 0 }

/-- Witness for C6: a fresh Variant A client configured for "ABC123" whose
login response confirms "XYZ999" issues the implicit switch PUT right after
the login and before the original GET; a fresh Variant B client in the same
situation — with a fresh token that already needs refresh — still ends its
login step with the switch PUT, before the original call's dispatch. -/
theorem C6_implicit_account_switch_witness :
    (∃ rest, (execA cfgEx envAmismatch 4
        (.req "GET" "session" none none none) (initA "ABC123")).2.trace
      = (initA "ABC123").trace ++ loginEventA cfgEx (initA "ABC123")
        :: genericEventA (afterLoginOkA cfgEx (initA "ABC123") "cst1" "xst1") "PUT" "session"
          (mergeHeaders cfgEx [("CST", "cst1"), ("X-SECURITY-TOKEN", "xst1")]
            (some [("Version", "1")]))
          (some (.switchPayload (initA "ABC123").st.account_id false)) :: rest) ∧
    (∃ dlog dcont,
      (execB cfgEx envBmismatch 6
          (.req "GET" "session" none none none) (initB "ABC123")).2.trace
        = ((initB "ABC123").trace ++ loginEventB cfgEx (initB "ABC123") :: dlog) ++ dcont ∧
      (execB cfgEx envBmismatch 5 .logIn (initB "ABC123")).2.trace
        = (initB "ABC123").trace ++ loginEventB cfgEx (initB "ABC123") :: dlog ∧
      (∀ b, (execB cfgEx envBmismatch 5 .logIn (initB "ABC123")).1 = .ok b →
        ∃ t ev, (initB "ABC123").trace ++ loginEventB cfgEx (initB "ABC123") :: dlog
            = t ++ [ev] ∧
          ev.kind = .generic ∧ ev.method = "PUT" ∧ ev.endpoint = "session" ∧
          ev.data = some (.switchPayload (initB "ABC123").st.account_id false)) ∧
      (∀ e, (execB cfgEx envBmismatch 5 .logIn (initB "ABC123")).1 = .error e →
        dcont = [])) :=
  ⟨C6_implicit_account_switch.1 cfgEx envAmismatch 0 (initA "ABC123") "cst1" "xst1" "XYZ999"
    "GET" "session" none none none rfl rfl (by decide),
   C6_implicit_account_switch.2.2.1 cfgEx envBmismatch 2 (initB "ABC123") "XYZ999" tokShort
    "GET" "session" none none none rfl rfl (by decide)⟩
